import Mathlib

/-!
Docker connection-environment resolver (internal/docker/env.go)

A shallow embedding of the resolver that decides which Docker daemon a tool
talks to, followed (after the definitions of the capability codec) by theorems
about it.

Modelling conventions:

* the process environment is a function `getenv : String → String`
  (`os.Getenv`, which reads an unset variable as the empty string);
* `opts.ParseHost(true, ·)` from the docker/cli dependency is a parameter
  `parseHost : String → Except GoError String`;
* `semver.ParseTolerant` from the blang/semver dependency is a parameter
  `parseTolerant : String → Except GoError Version`;
* the `context.Context` argument and the debug logging have no influence on
  the returned values and are left out.
-/

namespace Docker

/-! ## Data model -/

/-- A non-nil Go error value: either created with a message, or an error
wrapped with an extra message by `errors.Wrap`. -/
inductive GoError where
  | new (msg : String)
  | wrap (cause : GoError) (msg : String)
  deriving DecidableEq, Repr

/-- The Go struct `Env`; the zero value `Env{}` is `{}`. The field `Error` is
`none` for a nil error. -/
structure Env where
  Host : String := ""
  APIVersion : String := ""
  TLSVerify : String := ""
  CertPath : String := ""
  IsOldMinikube : Bool := false
  Error : Option GoError := none
  deriving DecidableEq, Repr

/-- The Go type `ClusterEnv` has the same underlying struct as `Env`. -/
abbrev ClusterEnv := Env

/-- The Go type `LocalEnv` has the same underlying struct as `Env`. -/
abbrev LocalEnv := Env

/-- The signature of `os.Getenv`. -/
abbrev Getenv := String → String

/-- The signature of `opts.ParseHost(true, ·)`. -/
abbrev HostParser := String → Except GoError String

/-- A Go `map[string]string`, as a list of key/value pairs. -/
abbrev StringMap := List (String × String)

/-- Indexing a Go map `m[k]`: the zero value (the empty string) when the key
is absent. -/
def StringMap.index (m : StringMap) (k : String) : String :=
  (m.lookup k).getD ""

/-- A process environment given by a list of NAME/VALUE pairs; a variable that
is not listed reads as empty. -/
def environ (vars : List (String × String)) : Getenv :=
  fun k => (vars.lookup k).getD ""

/-! ## Semantic versions (blang/semver) -/

/-- Modelled from the spec: the pre-release component `semver.PRVersion` of the
blang/semver dependency, whose source is not under src/. -/
structure PRVersion where
  VersionStr : String
  VersionNum : Nat
  IsNum : Bool
  deriving DecidableEq, Repr

/-- Modelled from the spec: the version type `semver.Version` of the
blang/semver dependency, whose source is not under src/. -/
structure Version where
  Major : Nat
  Minor : Nat
  Patch : Nat
  Pre : List PRVersion := []
  Build : List String := []
  deriving DecidableEq, Repr

/-- Modelled from the spec: `PRVersion.Compare` of the blang/semver dependency:
numeric identifiers sort below alphanumeric ones, numbers compare as numbers
and strings lexically. The result is -1, 0 or 1. -/
def PRVersion.Compare (v o : PRVersion) : Int :=
  if v.IsNum && !o.IsNum then -1
  else if !v.IsNum && o.IsNum then 1
  else if v.IsNum && o.IsNum then
    if v.VersionNum = o.VersionNum then 0
    else if v.VersionNum > o.VersionNum then 1
    else -1
  else
    if v.VersionStr = o.VersionStr then 0
    else if v.VersionStr > o.VersionStr then 1
    else -1

/-- Modelled from the spec: the element-wise comparison of two pre-release
lists at the end of `Version.Compare`: the first differing identifier decides,
and a list that is a proper start of the other one is the smaller. -/
def comparePre : List PRVersion → List PRVersion → Int
  | [], [] => 0
  | [], _ :: _ => -1
  | _ :: _, [] => 1
  | a :: as, b :: bs =>
    if a.Compare b = 0 then comparePre as bs
    else if a.Compare b = 1 then 1
    else -1

/-- Modelled from the spec: `Version.Compare` of the blang/semver dependency,
whose source is not under src/. The spec only says that the version gate asks
whether the threshold is greater than or equal to the parsed version; the order
meant is the precedence of semantic versions: major, minor and patch
numerically, then a version without pre-release above one with a pre-release,
then the pre-release identifiers; build metadata is ignored. The result is -1,
0 or 1. -/
def Version.Compare (v o : Version) : Int :=
  if v.Major ≠ o.Major then
    if v.Major > o.Major then 1 else -1
  else if v.Minor ≠ o.Minor then
    if v.Minor > o.Minor then 1 else -1
  else if v.Patch ≠ o.Patch then
    if v.Patch > o.Patch then 1 else -1
  else if v.Pre.length = 0 ∧ o.Pre.length = 0 then 0
  else if v.Pre.length = 0 ∧ o.Pre.length > 0 then 1
  else if v.Pre.length > 0 ∧ o.Pre.length = 0 then -1
  else comparePre v.Pre o.Pre

/-- Modelled from the spec: `Version.GTE` of the blang/semver dependency. -/
def Version.GTE (v o : Version) : Bool :=
  decide (v.Compare o ≥ 0)

/-- Modelled from the spec: `Version.LTE` of the blang/semver dependency. -/
def Version.LTE (v o : Version) : Bool :=
  decide (v.Compare o ≤ 0)

/-- Modelled from the spec: `Version.LT` of the blang/semver dependency. -/
def Version.LT (v o : Version) : Bool :=
  decide (v.Compare o = -1)

/-- Modelled from the spec: `Version.GT` of the blang/semver dependency. -/
def Version.GT (v o : Version) : Bool :=
  decide (v.Compare o = 1)

/-- The signature of `semver.ParseTolerant`. -/
abbrev VersionParser := String → Except GoError Version

/-- The threshold `semver.MustParse("1.8.0")`. -/
def minMinikubeVersionBuildkit : Version :=
  { Major := 1, Minor := 8, Patch := 0 }

/-! ## Collaborators declared outside src/ -/

/-- Modelled from the spec: the string type `k8s.Env` naming the cluster kind,
declared in internal/k8s, which is not under src/. -/
abbrev K8sEnv := String

/-- Modelled from the spec: the constant `k8s.EnvMinikube`, declared in
internal/k8s, which is not under src/. -/
def EnvMinikube : K8sEnv := "minikube"

/-- Modelled from the spec: the constant `k8s.EnvMicroK8s`, declared in
internal/k8s, which is not under src/. -/
def EnvMicroK8s : K8sEnv := "microk8s"

/-- Modelled from the spec: the string type `container.Runtime`, declared in
internal/container, which is not under src/. -/
abbrev Runtime := String

/-- Modelled from the spec: the constant `container.RuntimeDocker`, declared in
internal/container, which is not under src/. -/
def RuntimeDocker : Runtime := "docker"

/-- Modelled from the spec: the fixed MicroK8s docker socket address
`microK8sDockerHost`, declared in internal/docker outside src/. -/
def microK8sDockerHost : String := "unix:///var/snap/microk8s/current/docker.sock"

/-- Modelled from the spec: the interface `k8s.MinikubeClient`, with the
outcome of its two queries `DockerEnv(ctx)` and `Version(ctx)`; each query is
made at most once per resolution. -/
structure MinikubeClient where
  DockerEnv : Except GoError StringMap
  Version : Except GoError String

/-! ## The resolver -/

/-- The method `Env.AsEnviron`: the non-empty fields as NAME=VALUE strings. -/
def Env.AsEnviron (e : Env) : List String :=
  let vars : List String := []
  let vars := if e.Host ≠ "" then vars ++ ["DOCKER_HOST=" ++ e.Host] else vars
  let vars := if e.APIVersion ≠ "" then vars ++ ["DOCKER_API_VERSION=" ++ e.APIVersion] else vars
  let vars := if e.CertPath ≠ "" then vars ++ ["DOCKER_CERT_PATH=" ++ e.CertPath] else vars
  let vars := if e.TLSVerify ≠ "" then vars ++ ["DOCKER_TLS_VERIFY=" ++ e.TLSVerify] else vars
  vars

/-- The second half of `overlayOSEnvVars` (from the read of DOCKER_API_VERSION
to the return): each of the three variables overwrites its field when it is
non-empty. -/
def overlayOSEnvVars.rest (getenv : Getenv) (result : Env) : Env :=
  let apiVersion := getenv "DOCKER_API_VERSION"
  let result := if apiVersion ≠ "" then { result with APIVersion := apiVersion } else result
  let certPath := getenv "DOCKER_CERT_PATH"
  let result := if certPath ≠ "" then { result with CertPath := certPath } else result
  let tlsVerify := getenv "DOCKER_TLS_VERIFY"
  let result := if tlsVerify ≠ "" then { result with TLSVerify := tlsVerify } else result
  result

/-- The function `overlayOSEnvVars`. -/
def overlayOSEnvVars (getenv : Getenv) (parseHost : HostParser) (result : Env) : Env :=
  let host := getenv "DOCKER_HOST"
  if host ≠ "" then
    match parseHost host with
    | .error err => { Error := some (GoError.wrap err "ProvideDockerEnv") }
    | .ok host =>
      let result := if host ≠ result.Host then { Host := host } else result
      overlayOSEnvVars.rest getenv result
  else
    overlayOSEnvVars.rest getenv result

/-- The function `ProvideLocalEnv`. -/
def ProvideLocalEnv (getenv : Getenv) (parseHost : HostParser) (cEnv : ClusterEnv) : LocalEnv :=
  let result := overlayOSEnvVars getenv parseHost {}
  let result := if cEnv.Host = result.Host then
      { result with IsOldMinikube := cEnv.IsOldMinikube }
    else result
  result

/-- The function `isOldMinikube`. -/
def isOldMinikube (parseTolerant : VersionParser) (minikubeClient : MinikubeClient) : Bool :=
  match minikubeClient.Version with
  | .error _ => false
  | .ok v =>
    match parseTolerant v with
    | .error _ => false
    | .ok vParsed => minMinikubeVersionBuildkit.GTE vParsed

/-- The base environment that `ProvideClusterEnv` builds from the mapping
returned by a successful `DockerEnv` query and the version gate (the body of
the Minikube branch after the error check). -/
def minikubeBase (envMap : StringMap) (isOld : Bool) : Env :=
  let result : Env := {}
  let host := envMap.index "DOCKER_HOST"
  let result := if host ≠ "" then { result with Host := host } else result
  let apiVersion := envMap.index "DOCKER_API_VERSION"
  let result := if apiVersion ≠ "" then { result with APIVersion := apiVersion } else result
  let certPath := envMap.index "DOCKER_CERT_PATH"
  let result := if certPath ≠ "" then { result with CertPath := certPath } else result
  let tlsVerify := envMap.index "DOCKER_TLS_VERIFY"
  let result := if tlsVerify ≠ "" then { result with TLSVerify := tlsVerify } else result
  { result with IsOldMinikube := isOld }

/-- The function `ProvideClusterEnv`. -/
def ProvideClusterEnv (getenv : Getenv) (parseHost : HostParser) (parseTolerant : VersionParser)
    (env : K8sEnv) (runtime : Runtime) (minikubeClient : MinikubeClient) : ClusterEnv :=
  let result : Env := {}
  if runtime = RuntimeDocker then
    if env = EnvMinikube then
      match minikubeClient.DockerEnv with
      | .error err => { Error := some err }
      | .ok envMap =>
        overlayOSEnvVars getenv parseHost
          (minikubeBase envMap (isOldMinikube parseTolerant minikubeClient))
    else if env = EnvMicroK8s then
      overlayOSEnvVars getenv parseHost { result with Host := microK8sDockerHost }
    else
      overlayOSEnvVars getenv parseHost result
  else
    overlayOSEnvVars getenv parseHost result

/-! ## A process environment given as a list of NAME=VALUE strings -/

/-- The value that the entry `entry` of an environment list gives to the
variable `name`: what follows `name=` when the entry starts with it. -/
def entryValue (name entry : String) : Option String :=
  if (name ++ "=").toList.isPrefixOf entry.toList then
    some (String.mk (entry.toList.drop (name ++ "=").length))
  else none

/-- The process environment of a process started with the environment list
`vars` (strings NAME=VALUE, the format of `os.Environ` and of `AsEnviron`): a
variable reads as the value of its first entry, and as empty without one. -/
def environFromList (vars : List String) : Getenv :=
  fun name => (vars.findSome? (entryValue name)).getD ""

/-! ## Sample collaborators for the concrete scenarios -/

/-- A host parser for the concrete scenarios: it accepts (unchanged) the two
endpoints used there and rejects everything else. -/
def scenarioParseHost : HostParser := fun s =>
  if s = "tcp://localhost:2375" ∨ s = "tcp://192.168.99.100:2376" then .ok s
  else .error (.new "Invalid bind address format")

/-- A version parser for the concrete scenarios: it knows the versions used
there and rejects everything else. -/
def scenarioParseTolerant : VersionParser := fun s =>
  if s = "1.7.0" ∨ s = "v1.7.0" then .ok { Major := 1, Minor := 7, Patch := 0 }
  else if s = "1.8.0" then .ok { Major := 1, Minor := 8, Patch := 0 }
  else if s = "1.9.0" then .ok { Major := 1, Minor := 9, Patch := 0 }
  else .error (.new "Invalid character(s) found in major number")

end Docker

/-!
The capability message of buildkit (vendor/github.com/moby/buildkit/util/apicaps/pb/caps.pb.go)

A shallow embedding of the generated codec of `APICap`.

Modelling conventions:

* a byte is a `Fin 256`, a byte slice and a Go string are lists of bytes;
* a Go `int` has 64 bits: indices that stay within a slice are natural numbers,
  and an addition or a conversion that may wrap around goes through `int64`;
* a function that can panic returns a `Res`: a value, a returned error, a panic,
  or `diverge` when a loop of the model has used up its iteration budget;
* a function that writes into its argument returns the new buffer; `Unmarshal`
  returns the updated message, and the message that an error path leaves
  behind is not tracked.
-/

namespace Caps

/-! ## Machine integers and run-time outcomes -/

/-- A byte. -/
abbrev Byte := Fin 256

/-- The conversion `uint8(x)`: the low eight bits. -/
def toByte (x : Nat) : Byte := ⟨x % 256, Nat.mod_lt x (by decide)⟩

/-- The conversion `uint64(x)` of a non-negative integer: the low 64 bits. -/
def uint64 (x : Nat) : Nat := x % 18446744073709551616

/-- The value of a 64-bit two's complement integer: a Go `int` on a 64-bit
platform, after an addition or a conversion that may wrap around. -/
def int64 (x : Int) : Int :=
  (x + 9223372036854775808) % 18446744073709551616 - 9223372036854775808

/-- The conversion `int32(x)`: the low 32 bits, read as two's complement. -/
def int32 (x : Int) : Int := (x + 2147483648) % 4294967296 - 2147483648

/-- The errors returned by the codec. -/
inductive CapsError where
  /-- The sentinel `ErrInvalidLengthCaps`. -/
  | ErrInvalidLengthCaps
  /-- The sentinel `ErrIntOverflowCaps`. -/
  | ErrIntOverflowCaps
  /-- The sentinel `io.ErrUnexpectedEOF`. -/
  | ErrUnexpectedEOF
  /-- The error "proto: APICap: wiretype end group for non-group". -/
  | endGroupForNonGroup
  /-- The error "proto: APICap: illegal tag %d (wire type %d)". -/
  | illegalTag (fieldNum : Int) (wire : Nat)
  /-- The error "proto: wrong wireType = %d for field %s". -/
  | wrongWireType (wireType : Nat) (field : String)
  /-- The error "proto: illegal wireType %d". -/
  | illegalWireType (wireType : Nat)
  deriving DecidableEq, Repr

/-- The outcome of running a piece of the codec: a value, a returned error, a
run-time panic (an index or a slice out of range, or an explicit `panic`), or
`diverge` when a loop of the model has used up its iteration budget. -/
inductive Res (α : Type) where
  | ok (a : α)
  | err (e : CapsError)
  | panic (msg : String)
  | diverge
  deriving DecidableEq, Repr

/-- Sequencing of outcomes: everything but a value stops the run. -/
def Res.bind {α β : Type} (r : Res α) (f : α → Res β) : Res β :=
  match r with
  | .ok a => f a
  | .err e => .err e
  | .panic msg => .panic msg
  | .diverge => .diverge

instance : Monad Res where
  pure := Res.ok
  bind := Res.bind

/-- The run ended normally: with a value or with a returned error. -/
def Res.returns {α : Type} (r : Res α) : Prop :=
  (∃ a, r = .ok a) ∨ (∃ e, r = .err e)

/-- The indexing `dAtA[i]`, which panics out of range. -/
def index (dAtA : List Byte) (i : Nat) : Res Byte :=
  match dAtA[i]? with
  | some b => .ok b
  | none => .panic "index out of range"

/-- The assignment `dAtA[i] = b`, which panics out of range. -/
def setIndex (dAtA : List Byte) (i : Nat) (b : Byte) : Res (List Byte) :=
  if i < dAtA.length then .ok (dAtA.set i b) else .panic "index out of range"

/-- The slice `dAtA[lo:hi]`, which panics unless `lo ≤ hi ≤ len(dAtA)`. -/
def slice (dAtA : List Byte) (lo hi : Nat) : Res (List Byte) :=
  if lo ≤ hi ∧ hi ≤ dAtA.length then .ok ((dAtA.drop lo).take (hi - lo))
  else .panic "slice bounds out of range"

/-- The statement `n := copy(dAtA[i:], src)`: it panics when `i > len(dAtA)`,
and otherwise copies as many bytes as fit and returns their number. -/
def copyAt (dAtA : List Byte) (i : Nat) (src : List Byte) : Res (List Byte × Nat) :=
  if i ≤ dAtA.length then
    let n := min (dAtA.length - i) src.length
    .ok (dAtA.take i ++ src.take n ++ dAtA.drop (i + n), n)
  else .panic "slice bounds out of range"

/-! ## The message -/

/-- The Go struct `APICap`. Strings are byte sequences; a nil
`XXX_unrecognized` is the empty list. -/
structure APICap where
  ID : List Byte := []
  Enabled : Bool := false
  Deprecated : Bool := false
  DisabledReason : List Byte := []
  DisabledReasonMsg : List Byte := []
  DisabledAlternative : List Byte := []
  XXX_unrecognized : List Byte := []
  XXX_sizecache : Int := 0
  deriving DecidableEq, Repr

/-! ## Size -/

/-- The loop of `sovCaps`, with the number of iterations still allowed. -/
def sovCaps.loop : Nat → Nat → Nat → Nat
  | 0, _, n => n
  | fuel + 1, x, n =>
    let n := n + 1
    let x := x >>> 7
    if x = 0 then n else sovCaps.loop fuel x n

/-- The function `sovCaps` on a `uint64`: ten iterations shift out 70 bits. -/
def sovCaps (x : Nat) : Nat := sovCaps.loop 10 x 0

/-- The method `Size`. -/
def APICap.Size (m : APICap) : Nat :=
  let n := 0
  let l := m.ID.length
  let n := if l > 0 then n + (1 + l + sovCaps (uint64 l)) else n
  let n := if m.Enabled then n + 2 else n
  let n := if m.Deprecated then n + 2 else n
  let l := m.DisabledReason.length
  let n := if l > 0 then n + (1 + l + sovCaps (uint64 l)) else n
  let l := m.DisabledReasonMsg.length
  let n := if l > 0 then n + (1 + l + sovCaps (uint64 l)) else n
  let l := m.DisabledAlternative.length
  let n := if l > 0 then n + (1 + l + sovCaps (uint64 l)) else n
  let n := if m.XXX_unrecognized ≠ [] then n + m.XXX_unrecognized.length else n
  n

/-! ## Marshal -/

/-- The loop of `encodeVarintCaps` and the final write, with the number of
writes still allowed. -/
def encodeVarintCaps.loop : Nat → List Byte → Nat → Nat → Res (List Byte × Nat)
  | 0, _, _, _ => .diverge
  | fuel + 1, dAtA, offset, v =>
    if v ≥ 1 <<< 7 then do
      let dAtA ← setIndex dAtA offset (toByte (v &&& 0x7f ||| 0x80))
      encodeVarintCaps.loop fuel dAtA (offset + 1) (v >>> 7)
    else do
      let dAtA ← setIndex dAtA offset (toByte v)
      pure (dAtA, offset + 1)

/-- The function `encodeVarintCaps` on a `uint64`: it returns the buffer and
the new offset. -/
def encodeVarintCaps (dAtA : List Byte) (offset : Nat) (v : Nat) : Res (List Byte × Nat) :=
  encodeVarintCaps.loop 10 dAtA offset v

/-- The block of `MarshalTo` for a string field with tag byte `tag`. -/
def MarshalTo.stringField (tag : Byte) (s : List Byte) (dAtA : List Byte) (i : Nat) :
    Res (List Byte × Nat) :=
  if s.length > 0 then do
    let dAtA ← setIndex dAtA i tag
    let i := i + 1
    let (dAtA, i) ← encodeVarintCaps dAtA i (uint64 s.length)
    let (dAtA, n) ← copyAt dAtA i s
    pure (dAtA, i + n)
  else pure (dAtA, i)

/-- The block of `MarshalTo` for a boolean field with tag byte `tag`. -/
def MarshalTo.boolField (tag : Byte) (b : Bool) (dAtA : List Byte) (i : Nat) :
    Res (List Byte × Nat) :=
  if b then do
    let dAtA ← setIndex dAtA i tag
    let i := i + 1
    let dAtA ← if b then setIndex dAtA i 1 else setIndex dAtA i 0
    let i := i + 1
    pure (dAtA, i)
  else pure (dAtA, i)

/-- The method `MarshalTo`: it returns the buffer and the number of bytes
written. -/
def APICap.MarshalTo (m : APICap) (dAtA : List Byte) : Res (List Byte × Nat) := do
  let i := 0
  let (dAtA, i) ← MarshalTo.stringField 0xa m.ID dAtA i
  let (dAtA, i) ← MarshalTo.boolField 0x10 m.Enabled dAtA i
  let (dAtA, i) ← MarshalTo.boolField 0x18 m.Deprecated dAtA i
  let (dAtA, i) ← MarshalTo.stringField 0x22 m.DisabledReason dAtA i
  let (dAtA, i) ← MarshalTo.stringField 0x2a m.DisabledReasonMsg dAtA i
  let (dAtA, i) ← MarshalTo.stringField 0x32 m.DisabledAlternative dAtA i
  if m.XXX_unrecognized ≠ [] then do
    let (dAtA, n) ← copyAt dAtA i m.XXX_unrecognized
    pure (dAtA, i + n)
  else pure (dAtA, i)

/-- The method `Marshal`. -/
def APICap.Marshal (m : APICap) : Res (List Byte) := do
  let size := m.Size
  let dAtA := List.replicate size (0 : Byte)
  let (dAtA, n) ← m.MarshalTo dAtA
  slice dAtA 0 n

/-! ## Unmarshal -/

/-- One of the loops `for shift := uint(0); ; shift += 7` that read a varint
into a 64-bit accumulator, with the number of iterations still allowed. It
returns the accumulated bits and the new index. -/
def decodeVarint.loop (dAtA : List Byte) : Nat → Nat → Nat → Nat → Res (Nat × Nat)
  | 0, _, _, _ => .diverge
  | fuel + 1, iNdEx, shift, acc =>
    if shift ≥ 64 then .err .ErrIntOverflowCaps
    else if iNdEx ≥ dAtA.length then .err .ErrUnexpectedEOF
    else do
      let b ← index dAtA iNdEx
      let iNdEx := iNdEx + 1
      let acc := acc ||| uint64 ((b.val &&& 0x7F) <<< shift)
      if b.val < 0x80 then pure (acc, iNdEx)
      else decodeVarint.loop dAtA fuel iNdEx (shift + 7) acc

/-- A varint read starting at `iNdEx`: the shift takes the values 0, 7, ..., 63
and the loop returns at the shift 70 at the latest. -/
def decodeVarint (dAtA : List Byte) (iNdEx : Nat) : Res (Nat × Nat) :=
  decodeVarint.loop dAtA 11 iNdEx 0 0

/-- The body of a string case of `Unmarshal`, after the wire type check: it
returns the string and the new index. -/
def Unmarshal.stringField (dAtA : List Byte) (iNdEx : Nat) : Res (List Byte × Nat) := do
  let r ← decodeVarint dAtA iNdEx
  let stringLen := r.1
  let iNdEx := r.2
  let intStringLen := int64 stringLen
  if intStringLen < 0 then .err .ErrInvalidLengthCaps
  else
    let postIndex := int64 (iNdEx + intStringLen)
    if postIndex < 0 then .err .ErrInvalidLengthCaps
    else if postIndex > dAtA.length then .err .ErrUnexpectedEOF
    else do
      let s ← slice dAtA iNdEx postIndex.toNat
      pure (s, postIndex.toNat)

/-- The body of a boolean case of `Unmarshal`, after the wire type check: it
returns the boolean and the new index. -/
def Unmarshal.boolField (dAtA : List Byte) (iNdEx : Nat) : Res (Bool × Nat) := do
  let r ← decodeVarint dAtA iNdEx
  let v := r.1
  let iNdEx := r.2
  pure (decide (v ≠ 0), iNdEx)

mutual
/-- The function `skipCaps`, with a budget on the recursive calls and loop
iterations. It returns `n`. -/
def skipCaps : Nat → List Byte → Res Int
  | 0, _ => .diverge
  | fuel + 1, dAtA =>
    let l := dAtA.length
    let iNdEx := 0
    if iNdEx < l then do
      let r ← decodeVarint dAtA iNdEx
      let wire := r.1
      let iNdEx := r.2
      let wireType := wire &&& 0x7
      if wireType = 0 then do
        let r ← decodeVarint dAtA iNdEx
        let iNdEx := r.2
        pure (iNdEx : Int)
      else if wireType = 1 then
        pure (int64 (iNdEx + 8))
      else if wireType = 2 then do
        let r ← decodeVarint dAtA iNdEx
        let length := int64 r.1
        let iNdEx := r.2
        if length < 0 then .err .ErrInvalidLengthCaps
        else
          let iNdEx := int64 (iNdEx + length)
          if iNdEx < 0 then .err .ErrInvalidLengthCaps
          else pure iNdEx
      else if wireType = 3 then
        skipCaps.group fuel dAtA iNdEx
      else if wireType = 4 then
        pure (iNdEx : Int)
      else if wireType = 5 then
        pure (int64 (iNdEx + 4))
      else .err (.illegalWireType wireType)
    else .panic "unreachable"
/-- The loop `for` of the case 3 (start group) of `skipCaps`, entered with the
index `iNdEx`. -/
def skipCaps.group : Nat → List Byte → Nat → Res Int
  | 0, _, _ => .diverge
  | fuel + 1, dAtA, iNdEx =>
    let start := iNdEx
    do
      let r ← decodeVarint dAtA iNdEx
      let innerWire := r.1
      let iNdEx := r.2
      let innerWireType := innerWire &&& 0x7
      if innerWireType = 4 then pure (iNdEx : Int)
      else do
        let sub ← slice dAtA start dAtA.length
        let next ← skipCaps fuel sub
        let iNdEx := int64 (start + next)
        if iNdEx < 0 then .err .ErrInvalidLengthCaps
        else skipCaps.group fuel dAtA iNdEx.toNat
end

/-- The default case of `Unmarshal`: the field that starts at `iNdEx` is
skipped and its bytes are appended to the unrecognised bytes. It returns the
new index and the updated message. -/
def Unmarshal.unknownField (dAtA : List Byte) (iNdEx : Nat) (m : APICap) :
    Res (Nat × APICap) := do
  let l := dAtA.length
  let sub ← slice dAtA iNdEx l
  let skippy ← skipCaps (2 * sub.length) sub
  if skippy < 0 then .err .ErrInvalidLengthCaps
  else if int64 (iNdEx + skippy) < 0 then .err .ErrInvalidLengthCaps
  else if int64 (iNdEx + skippy) > l then .err .ErrUnexpectedEOF
  else do
    let chunk ← slice dAtA iNdEx (int64 (iNdEx + skippy)).toNat
    pure ((int64 (iNdEx + skippy)).toNat,
      { m with XXX_unrecognized := m.XXX_unrecognized ++ chunk })

/-- The body of the main loop of `Unmarshal`: one field is read at `iNdEx`. It
returns the new index and the updated message. -/
def Unmarshal.step (dAtA : List Byte) (iNdEx : Nat) (m : APICap) : Res (Nat × APICap) := do
  let preIndex := iNdEx
  let r ← decodeVarint dAtA iNdEx
  let wire := r.1
  let iNdEx := r.2
  let fieldNum := int32 (wire >>> 3)
  let wireType := wire &&& 0x7
  if wireType = 4 then .err .endGroupForNonGroup
  else if fieldNum ≤ 0 then .err (.illegalTag fieldNum wire)
  else if fieldNum = 1 then
    if wireType ≠ 2 then .err (.wrongWireType wireType "ID")
    else do
      let r ← Unmarshal.stringField dAtA iNdEx
      pure (r.2, { m with ID := r.1 })
  else if fieldNum = 2 then
    if wireType ≠ 0 then .err (.wrongWireType wireType "Enabled")
    else do
      let r ← Unmarshal.boolField dAtA iNdEx
      pure (r.2, { m with Enabled := r.1 })
  else if fieldNum = 3 then
    if wireType ≠ 0 then .err (.wrongWireType wireType "Deprecated")
    else do
      let r ← Unmarshal.boolField dAtA iNdEx
      pure (r.2, { m with Deprecated := r.1 })
  else if fieldNum = 4 then
    if wireType ≠ 2 then .err (.wrongWireType wireType "DisabledReason")
    else do
      let r ← Unmarshal.stringField dAtA iNdEx
      pure (r.2, { m with DisabledReason := r.1 })
  else if fieldNum = 5 then
    if wireType ≠ 2 then .err (.wrongWireType wireType "DisabledReasonMsg")
    else do
      let r ← Unmarshal.stringField dAtA iNdEx
      pure (r.2, { m with DisabledReasonMsg := r.1 })
  else if fieldNum = 6 then
    if wireType ≠ 2 then .err (.wrongWireType wireType "DisabledAlternative")
    else do
      let r ← Unmarshal.stringField dAtA iNdEx
      pure (r.2, { m with DisabledAlternative := r.1 })
  else Unmarshal.unknownField dAtA preIndex m

/-- The main loop of `Unmarshal` and the final check, with the number of
iterations still allowed. -/
def Unmarshal.loop (dAtA : List Byte) : Nat → Nat → APICap → Res APICap
  | 0, _, _ => .diverge
  | fuel + 1, iNdEx, m =>
    if iNdEx < dAtA.length then do
      let r ← Unmarshal.step dAtA iNdEx m
      Unmarshal.loop dAtA fuel r.1 r.2
    else if iNdEx > dAtA.length then .err .ErrUnexpectedEOF
    else pure m

/-- The method `Unmarshal`: it returns the updated message, or the error. Every
iteration of the main loop consumes at least one byte, which bounds their
number. -/
def APICap.Unmarshal (m : APICap) (dAtA : List Byte) : Res APICap :=
  Unmarshal.loop dAtA (dAtA.length + 1) 0 m

/-! ## The wire format, as a specification for the proofs -/

/-- The bytes of the varint of `v`: seven bits per byte, least significant
group first, the top bit set on every byte but the last. -/
def varintBytes (v : Nat) : List Byte :=
  if v ≥ 128 then toByte (v &&& 0x7f ||| 0x80) :: varintBytes (v >>> 7)
  else [toByte v]
termination_by v
decreasing_by
  rename_i h
  rw [Nat.shiftRight_eq_div_pow]
  exact Nat.div_lt_self (Nat.lt_of_lt_of_le (by decide) h) (by decide)

/-- The bytes of a string field: nothing for the empty string, otherwise the
tag, the varint of the length and the string. -/
def stringFieldBytes (tag : Byte) (s : List Byte) : List Byte :=
  if s.length > 0 then tag :: (varintBytes (uint64 s.length) ++ s) else []

/-- The bytes of a boolean field: nothing for false, otherwise the tag and 1. -/
def boolFieldBytes (tag : Byte) (b : Bool) : List Byte :=
  if b then [tag, 1] else []

/-- The bytes of a message: its fields in the order of their numbers, then the
unrecognised bytes. -/
def wireBytes (m : APICap) : List Byte :=
  stringFieldBytes 0xa m.ID ++ (boolFieldBytes 0x10 m.Enabled ++
    (boolFieldBytes 0x18 m.Deprecated ++ (stringFieldBytes 0x22 m.DisabledReason ++
      (stringFieldBytes 0x2a m.DisabledReasonMsg ++
        (stringFieldBytes 0x32 m.DisabledAlternative ++ m.XXX_unrecognized)))))

end Caps

namespace Docker

/-! ## Helper lemmas: the three-variable overlay, field by field -/

theorem rest_Host (getenv : Getenv) (r : Env) :
    (overlayOSEnvVars.rest getenv r).Host = r.Host := by
  unfold overlayOSEnvVars.rest
  by_cases h1 : getenv "DOCKER_API_VERSION" = "" <;>
  by_cases h2 : getenv "DOCKER_CERT_PATH" = "" <;>
  by_cases h3 : getenv "DOCKER_TLS_VERIFY" = "" <;> simp [h1, h2, h3]

theorem rest_IsOldMinikube (getenv : Getenv) (r : Env) :
    (overlayOSEnvVars.rest getenv r).IsOldMinikube = r.IsOldMinikube := by
  unfold overlayOSEnvVars.rest
  by_cases h1 : getenv "DOCKER_API_VERSION" = "" <;>
  by_cases h2 : getenv "DOCKER_CERT_PATH" = "" <;>
  by_cases h3 : getenv "DOCKER_TLS_VERIFY" = "" <;> simp [h1, h2, h3]

theorem rest_Error (getenv : Getenv) (r : Env) :
    (overlayOSEnvVars.rest getenv r).Error = r.Error := by
  unfold overlayOSEnvVars.rest
  by_cases h1 : getenv "DOCKER_API_VERSION" = "" <;>
  by_cases h2 : getenv "DOCKER_CERT_PATH" = "" <;>
  by_cases h3 : getenv "DOCKER_TLS_VERIFY" = "" <;> simp [h1, h2, h3]

theorem rest_APIVersion (getenv : Getenv) (r : Env) :
    (overlayOSEnvVars.rest getenv r).APIVersion =
      if getenv "DOCKER_API_VERSION" ≠ "" then getenv "DOCKER_API_VERSION" else r.APIVersion := by
  unfold overlayOSEnvVars.rest
  by_cases h1 : getenv "DOCKER_API_VERSION" = "" <;>
  by_cases h2 : getenv "DOCKER_CERT_PATH" = "" <;>
  by_cases h3 : getenv "DOCKER_TLS_VERIFY" = "" <;> simp [h1, h2, h3]

theorem rest_CertPath (getenv : Getenv) (r : Env) :
    (overlayOSEnvVars.rest getenv r).CertPath =
      if getenv "DOCKER_CERT_PATH" ≠ "" then getenv "DOCKER_CERT_PATH" else r.CertPath := by
  unfold overlayOSEnvVars.rest
  by_cases h1 : getenv "DOCKER_API_VERSION" = "" <;>
  by_cases h2 : getenv "DOCKER_CERT_PATH" = "" <;>
  by_cases h3 : getenv "DOCKER_TLS_VERIFY" = "" <;> simp [h1, h2, h3]

theorem rest_TLSVerify (getenv : Getenv) (r : Env) :
    (overlayOSEnvVars.rest getenv r).TLSVerify =
      if getenv "DOCKER_TLS_VERIFY" ≠ "" then getenv "DOCKER_TLS_VERIFY" else r.TLSVerify := by
  unfold overlayOSEnvVars.rest
  by_cases h1 : getenv "DOCKER_API_VERSION" = "" <;>
  by_cases h2 : getenv "DOCKER_CERT_PATH" = "" <;>
  by_cases h3 : getenv "DOCKER_TLS_VERIFY" = "" <;> simp [h1, h2, h3]

/-- Two environments with the same six fields are equal. -/
theorem Env.ext_fields {a b : Env} (h1 : a.Host = b.Host) (h2 : a.APIVersion = b.APIVersion)
    (h3 : a.TLSVerify = b.TLSVerify) (h4 : a.CertPath = b.CertPath)
    (h5 : a.IsOldMinikube = b.IsOldMinikube) (h6 : a.Error = b.Error) : a = b := by
  cases a; cases b; simp_all

/-- On a fresh environment that holds only a host, the three-variable overlay
yields exactly the values of the three variables. -/
theorem rest_fresh (getenv : Getenv) (h : String) :
    overlayOSEnvVars.rest getenv { Host := h } =
      { Host := h, APIVersion := getenv "DOCKER_API_VERSION",
        TLSVerify := getenv "DOCKER_TLS_VERIFY", CertPath := getenv "DOCKER_CERT_PATH",
        IsOldMinikube := false, Error := none } := by
  apply Env.ext_fields
  · rw [rest_Host]
  · rw [rest_APIVersion]; by_cases h1 : getenv "DOCKER_API_VERSION" = "" <;> simp [h1]
  · rw [rest_TLSVerify]; by_cases h1 : getenv "DOCKER_TLS_VERIFY" = "" <;> simp [h1]
  · rw [rest_CertPath]; by_cases h1 : getenv "DOCKER_CERT_PATH" = "" <;> simp [h1]
  · rw [rest_IsOldMinikube]
  · rw [rest_Error]

/-- The overlay when DOCKER_HOST is unset. -/
theorem overlay_unset (getenv : Getenv) (parseHost : HostParser) (base : Env)
    (hunset : getenv "DOCKER_HOST" = "") :
    overlayOSEnvVars getenv parseHost base = overlayOSEnvVars.rest getenv base := by
  simp [overlayOSEnvVars, hunset]

/-- The overlay when DOCKER_HOST is set and does not parse. -/
theorem overlay_unparsable (getenv : Getenv) (parseHost : HostParser) (base : Env) (err : GoError)
    (hset : getenv "DOCKER_HOST" ≠ "") (hparse : parseHost (getenv "DOCKER_HOST") = .error err) :
    overlayOSEnvVars getenv parseHost base =
      { Error := some (GoError.wrap err "ProvideDockerEnv") } := by
  simp [overlayOSEnvVars, hset, hparse]

/-- The overlay when DOCKER_HOST is set and parses to the host of the base. -/
theorem overlay_same (getenv : Getenv) (parseHost : HostParser) (base : Env)
    (hset : getenv "DOCKER_HOST" ≠ "") (hparse : parseHost (getenv "DOCKER_HOST") = .ok base.Host) :
    overlayOSEnvVars getenv parseHost base = overlayOSEnvVars.rest getenv base := by
  simp [overlayOSEnvVars, hset, hparse]

/-- The overlay when DOCKER_HOST is set and parses to another host than the
one of the base. -/
theorem overlay_changed (getenv : Getenv) (parseHost : HostParser) (base : Env) (h : String)
    (hset : getenv "DOCKER_HOST" ≠ "") (hparse : parseHost (getenv "DOCKER_HOST") = .ok h)
    (hne : h ≠ base.Host) :
    overlayOSEnvVars getenv parseHost base = overlayOSEnvVars.rest getenv { Host := h } := by
  simp [overlayOSEnvVars, hset, hparse, hne]

/-- The overlay never raises the old-Minikube flag: the flag of the result is
the one of the base, or false after a reset or a parse failure. -/
theorem overlay_flag_of_base_false (getenv : Getenv) (parseHost : HostParser) (base : Env)
    (hb : base.IsOldMinikube = false) :
    (overlayOSEnvVars getenv parseHost base).IsOldMinikube = false := by
  by_cases hset : getenv "DOCKER_HOST" = ""
  · rw [overlay_unset getenv parseHost base hset, rest_IsOldMinikube, hb]
  · cases hp : parseHost (getenv "DOCKER_HOST") with
    | error e => rw [overlay_unparsable getenv parseHost base e hset hp]
    | ok h =>
      by_cases hne : h = base.Host
      · subst hne
        rw [overlay_same getenv parseHost base hset hp, rest_IsOldMinikube, hb]
      · rw [overlay_changed getenv parseHost base h hset hp hne, rest_IsOldMinikube]

/-- The error of the overlay of an error-free base is set exactly when
DOCKER_HOST is non-empty and does not parse. -/
theorem overlay_error_iff (getenv : Getenv) (parseHost : HostParser) (base : Env)
    (hb : base.Error = none) :
    (overlayOSEnvVars getenv parseHost base).Error ≠ none ↔
      (getenv "DOCKER_HOST" ≠ "" ∧ ∃ e, parseHost (getenv "DOCKER_HOST") = .error e) := by
  by_cases hset : getenv "DOCKER_HOST" = ""
  · rw [overlay_unset getenv parseHost base hset, rest_Error, hb]
    simp [hset]
  · cases hp : parseHost (getenv "DOCKER_HOST") with
    | error e =>
      rw [overlay_unparsable getenv parseHost base e hset hp]
      simp [hset]
    | ok h =>
      by_cases hne : h = base.Host
      · subst hne
        rw [overlay_same getenv parseHost base hset hp, rest_Error, hb]
        simp
      · rw [overlay_changed getenv parseHost base h hset hp hne, rest_Error]
        simp

/-- The base built in the Minikube branch, field by field: a key that is
absent or maps to the empty string leaves its field empty. -/
theorem minikubeBase_eq (m : StringMap) (b : Bool) :
    minikubeBase m b =
      { Host := m.index "DOCKER_HOST", APIVersion := m.index "DOCKER_API_VERSION",
        TLSVerify := m.index "DOCKER_TLS_VERIFY", CertPath := m.index "DOCKER_CERT_PATH",
        IsOldMinikube := b, Error := none } := by
  unfold minikubeBase
  by_cases h1 : m.index "DOCKER_HOST" = "" <;>
  by_cases h2 : m.index "DOCKER_API_VERSION" = "" <;>
  by_cases h3 : m.index "DOCKER_CERT_PATH" = "" <;>
  by_cases h4 : m.index "DOCKER_TLS_VERIFY" = "" <;> simp [h1, h2, h3, h4]

/-- The Minikube branch of the cluster resolver after a successful query. -/
theorem cluster_minikube_ok (getenv : Getenv) (parseHost : HostParser)
    (parseTolerant : VersionParser) (mc : MinikubeClient) (m : StringMap)
    (hm : mc.DockerEnv = .ok m) :
    ProvideClusterEnv getenv parseHost parseTolerant EnvMinikube RuntimeDocker mc =
      overlayOSEnvVars getenv parseHost (minikubeBase m (isOldMinikube parseTolerant mc)) := by
  simp [ProvideClusterEnv, hm]

/-- The threshold is greater than or equal to a version exactly when the
version numbers of the latter are at most 1.8.0. -/
theorem threshold_GTE_iff (v : Version) :
    minMinikubeVersionBuildkit.GTE v = true ↔
      (v.Major < 1 ∨ (v.Major = 1 ∧ (v.Minor < 8 ∨ (v.Minor = 8 ∧ v.Patch = 0)))) := by
  simp only [Version.GTE, Version.Compare, minMinikubeVersionBuildkit, decide_eq_true_eq]
  split_ifs <;> simp_all <;> omega

/-- A version is less than or equal to the threshold exactly when its version
numbers are at most 1.8.0. -/
theorem LTE_threshold_iff (v : Version) :
    v.LTE minMinikubeVersionBuildkit = true ↔
      (v.Major < 1 ∨ (v.Major = 1 ∧ (v.Minor < 8 ∨ (v.Minor = 8 ∧ v.Patch = 0)))) := by
  simp only [Version.LTE, Version.Compare, minMinikubeVersionBuildkit, decide_eq_true_eq]
  split_ifs <;> simp_all <;> omega

/-- The version gate on a version that was obtained and parsed. -/
theorem isOldMinikube_parsed (parseTolerant : VersionParser) (mc : MinikubeClient) (s : String)
    (v : Version) (hv : mc.Version = .ok s) (hp : parseTolerant s = .ok v) :
    isOldMinikube parseTolerant mc = minMinikubeVersionBuildkit.GTE v := by
  simp [isOldMinikube, hv, hp]

/-- The version gate when the query or the parse fails. -/
theorem isOldMinikube_failed (parseTolerant : VersionParser) (mc : MinikubeClient)
    (hfail : (∃ e, mc.Version = .error e) ∨
      (∃ s e, mc.Version = .ok s ∧ parseTolerant s = .error e)) :
    isOldMinikube parseTolerant mc = false := by
  rcases hfail with ⟨e, he⟩ | ⟨s, e, hs, he⟩
  · simp [isOldMinikube, he]
  · simp [isOldMinikube, hs, he]

/-- The local resolver keeps the host that the overlay of the empty
environment resolved. -/
theorem local_Host (getenv : Getenv) (parseHost : HostParser) (cEnv : ClusterEnv) :
    (ProvideLocalEnv getenv parseHost cEnv).Host =
      (overlayOSEnvVars getenv parseHost {}).Host := by
  unfold ProvideLocalEnv
  dsimp only
  by_cases hh : cEnv.Host = (overlayOSEnvVars getenv parseHost {}).Host
  · rw [if_pos hh]
  · rw [if_neg hh]

/-- The three-variable overlay applied twice is the overlay applied once. -/
theorem rest_idem (getenv : Getenv) (r : Env) :
    overlayOSEnvVars.rest getenv (overlayOSEnvVars.rest getenv r) =
      overlayOSEnvVars.rest getenv r := by
  apply Env.ext_fields
  · rw [rest_Host]
  · rw [rest_APIVersion, rest_APIVersion]
    by_cases h : getenv "DOCKER_API_VERSION" = "" <;> simp [h]
  · rw [rest_TLSVerify, rest_TLSVerify]
    by_cases h : getenv "DOCKER_TLS_VERIFY" = "" <;> simp [h]
  · rw [rest_CertPath, rest_CertPath]
    by_cases h : getenv "DOCKER_CERT_PATH" = "" <;> simp [h]
  · rw [rest_IsOldMinikube]
  · rw [rest_Error]

/-- The local resolver keeps the error that the overlay of the empty
environment produced. -/
theorem local_Error (getenv : Getenv) (parseHost : HostParser) (cEnv : ClusterEnv) :
    (ProvideLocalEnv getenv parseHost cEnv).Error =
      (overlayOSEnvVars getenv parseHost {}).Error := by
  unfold ProvideLocalEnv
  dsimp only
  by_cases hh : cEnv.Host = (overlayOSEnvVars getenv parseHost {}).Host
  · rw [if_pos hh]
  · rw [if_neg hh]

/-- An entry NAME=VALUE gives VALUE to the variable NAME. -/
theorem entryValue_hit (name v : String) : entryValue name (name ++ "=" ++ v) = some v := by
  unfold entryValue
  have h2 : (name ++ "=" ++ v).toList = (name ++ "=").toList ++ v.toList :=
    String.data_append _ _
  have h3 : (name ++ "=").length = (name ++ "=").toList.length := rfl
  rw [h2, h3, List.drop_left]
  have h4 : (name ++ "=").toList.isPrefixOf ((name ++ "=").toList ++ v.toList) = true := by
    rw [List.isPrefixOf_iff_prefix]
    exact List.prefix_append _ _
  rw [if_pos h4]
  rfl

/-- When neither of two character lists starts with the other, the first one
does not start any extension of the second. -/
theorem isPrefixOf_append_false : ∀ (a b x : List Char), a.isPrefixOf b = false →
    b.isPrefixOf a = false → a.isPrefixOf (b ++ x) = false
  | [], b, x, h, _ => by rw [List.isPrefixOf_nil_left] at h; exact absurd h (by decide)
  | _ :: _, [], x, _, h => by rw [List.isPrefixOf_nil_left] at h; exact absurd h (by decide)
  | c :: a, d :: b, x, h1, h2 => by
    simp only [List.isPrefixOf_cons₂, List.cons_append, Bool.and_eq_false_iff] at h1 h2 ⊢
    by_cases hcd : (c == d) = true
    · have hdc : (d == c) = true := by
        rw [eq_of_beq hcd]
        exact beq_self_eq_true d
      right
      apply isPrefixOf_append_false a b x
      · rcases h1 with h | h
        · simp [hcd] at h
        · exact h
      · rcases h2 with h | h
        · simp [hdc] at h
        · exact h
    · left
      simpa using hcd

/-- An entry of another variable gives no value to the variable `name`. -/
theorem entryValue_miss (name other v : String)
    (h1 : (name ++ "=").toList.isPrefixOf (other ++ "=").toList = false)
    (h2 : (other ++ "=").toList.isPrefixOf (name ++ "=").toList = false) :
    entryValue name (other ++ "=" ++ v) = none := by
  unfold entryValue
  have h : (other ++ "=" ++ v).toList = (other ++ "=").toList ++ v.toList :=
    String.data_append _ _
  rw [h, isPrefixOf_append_false _ _ _ h1 h2]
  rfl

/-! ## The OS overlay -/

/-- C1: when DOCKER_HOST is non-empty and parses to a host `h` other than the
host of the base, the overlay returns what it returns on the empty
environment: the host is `h`, the API version, certificate path and TLS-verify
fields are the values of their variables, the old-Minikube flag is false and no
error is set; nothing of the base survives. -/
theorem overlayOSEnvVars_host_changed (getenv : Getenv) (parseHost : HostParser) (base : Env)
    (h : String) (hset : getenv "DOCKER_HOST" ≠ "")
    (hparse : parseHost (getenv "DOCKER_HOST") = .ok h) (hne : h ≠ base.Host) :
    overlayOSEnvVars getenv parseHost base = overlayOSEnvVars getenv parseHost {} ∧
    overlayOSEnvVars getenv parseHost base =
      { Host := h, APIVersion := getenv "DOCKER_API_VERSION",
        TLSVerify := getenv "DOCKER_TLS_VERIFY", CertPath := getenv "DOCKER_CERT_PATH",
        IsOldMinikube := false, Error := none } := by
  have hb := overlay_changed getenv parseHost base h hset hparse hne
  have he : overlayOSEnvVars getenv parseHost {} = overlayOSEnvVars.rest getenv { Host := h } := by
    by_cases h0 : h = ""
    · subst h0
      exact overlay_same getenv parseHost {} hset hparse
    · exact overlay_changed getenv parseHost {} h hset hparse h0
  refine ⟨by rw [hb, he], ?_⟩
  rw [hb, rest_fresh]

/-- Witness of C1: the operator points DOCKER_HOST at tcp://localhost:2375 and
sets a certificate path, while the base came from a Minikube at
tcp://192.168.99.100:2376. -/
theorem overlayOSEnvVars_host_changed_witness :
    overlayOSEnvVars
        (environ [("DOCKER_HOST", "tcp://localhost:2375"), ("DOCKER_CERT_PATH", "/certs")])
        scenarioParseHost
        { Host := "tcp://192.168.99.100:2376", APIVersion := "1.35", TLSVerify := "1",
          CertPath := "/home/user/.minikube/certs", IsOldMinikube := true } =
      { Host := "tcp://localhost:2375", CertPath := "/certs" } :=
  (overlayOSEnvVars_host_changed
    (environ [("DOCKER_HOST", "tcp://localhost:2375"), ("DOCKER_CERT_PATH", "/certs")])
    scenarioParseHost
    { Host := "tcp://192.168.99.100:2376", APIVersion := "1.35", TLSVerify := "1",
      CertPath := "/home/user/.minikube/certs", IsOldMinikube := true }
    "tcp://localhost:2375" (by decide) (by rfl) (by decide)).2

/-- C2: when DOCKER_HOST is non-empty and does not parse, the overlay returns
the environment that holds only the wrapped parse error: host, API version,
TLS-verify and certificate path are empty and the old-Minikube flag is false,
whatever the base and the three other variables are. -/
theorem overlayOSEnvVars_host_unparsable (getenv : Getenv) (parseHost : HostParser) (base : Env)
    (err : GoError) (hset : getenv "DOCKER_HOST" ≠ "")
    (hparse : parseHost (getenv "DOCKER_HOST") = .error err) :
    overlayOSEnvVars getenv parseHost base =
      { Host := "", APIVersion := "", TLSVerify := "", CertPath := "", IsOldMinikube := false,
        Error := some (GoError.wrap err "ProvideDockerEnv") } :=
  overlay_unparsable getenv parseHost base err hset hparse

/-- Witness of C2: DOCKER_HOST is not a valid endpoint, the three other
variables are set and the base is fully populated. -/
theorem overlayOSEnvVars_host_unparsable_witness :
    overlayOSEnvVars
        (environ [("DOCKER_HOST", "not a valid endpoint"), ("DOCKER_API_VERSION", "1.40"),
          ("DOCKER_CERT_PATH", "/certs"), ("DOCKER_TLS_VERIFY", "1")])
        scenarioParseHost
        { Host := "tcp://192.168.99.100:2376", APIVersion := "1.35", TLSVerify := "1",
          CertPath := "/home/user/.minikube/certs", IsOldMinikube := true } =
      { Host := "", APIVersion := "", TLSVerify := "", CertPath := "", IsOldMinikube := false,
        Error := some (GoError.wrap (GoError.new "Invalid bind address format")
          "ProvideDockerEnv") } :=
  overlayOSEnvVars_host_unparsable
    (environ [("DOCKER_HOST", "not a valid endpoint"), ("DOCKER_API_VERSION", "1.40"),
      ("DOCKER_CERT_PATH", "/certs"), ("DOCKER_TLS_VERIFY", "1")])
    scenarioParseHost
    { Host := "tcp://192.168.99.100:2376", APIVersion := "1.35", TLSVerify := "1",
      CertPath := "/home/user/.minikube/certs", IsOldMinikube := true }
    (GoError.new "Invalid bind address format") (by decide) (by rfl)

/-- C3: when DOCKER_HOST is unset, the overlay keeps the host and the
old-Minikube flag of the base, and each of the API version, certificate path
and TLS-verify fields is the value of its variable when that variable is
non-empty and the value of the base otherwise. -/
theorem overlayOSEnvVars_host_unset (getenv : Getenv) (parseHost : HostParser) (base : Env)
    (hunset : getenv "DOCKER_HOST" = "") :
    (overlayOSEnvVars getenv parseHost base).Host = base.Host ∧
    (overlayOSEnvVars getenv parseHost base).IsOldMinikube = base.IsOldMinikube ∧
    (overlayOSEnvVars getenv parseHost base).APIVersion =
      (if getenv "DOCKER_API_VERSION" ≠ "" then getenv "DOCKER_API_VERSION"
        else base.APIVersion) ∧
    (overlayOSEnvVars getenv parseHost base).CertPath =
      (if getenv "DOCKER_CERT_PATH" ≠ "" then getenv "DOCKER_CERT_PATH" else base.CertPath) ∧
    (overlayOSEnvVars getenv parseHost base).TLSVerify =
      (if getenv "DOCKER_TLS_VERIFY" ≠ "" then getenv "DOCKER_TLS_VERIFY"
        else base.TLSVerify) := by
  rw [overlay_unset getenv parseHost base hunset]
  exact ⟨rest_Host _ _, rest_IsOldMinikube _ _, rest_APIVersion _ _, rest_CertPath _ _,
    rest_TLSVerify _ _⟩

/-- Witness of C3: only DOCKER_API_VERSION is set. -/
theorem overlayOSEnvVars_host_unset_witness :
    overlayOSEnvVars (environ [("DOCKER_API_VERSION", "1.40")]) scenarioParseHost
        { Host := "tcp://192.168.99.100:2376", APIVersion := "1.35", TLSVerify := "1",
          CertPath := "/home/user/.minikube/certs", IsOldMinikube := true } =
      { Host := "tcp://192.168.99.100:2376", APIVersion := "1.40", TLSVerify := "1",
        CertPath := "/home/user/.minikube/certs", IsOldMinikube := true } := by
  have h := overlayOSEnvVars_host_unset (environ [("DOCKER_API_VERSION", "1.40")])
    scenarioParseHost
    { Host := "tcp://192.168.99.100:2376", APIVersion := "1.35", TLSVerify := "1",
      CertPath := "/home/user/.minikube/certs", IsOldMinikube := true } (by decide)
  exact Env.ext_fields h.1 h.2.2.1 h.2.2.2.2 h.2.2.2.1 h.2.1 (by rfl)

/-- C4: when DOCKER_HOST is non-empty and parses to exactly the host of the
base, nothing is reset: the overlay keeps the host and the old-Minikube flag of
the base, and each of the API version, certificate path and TLS-verify fields
is overwritten by its own variable exactly when that variable is non-empty,
whatever the two other variables are, and keeps the value of the base
otherwise. -/
theorem overlayOSEnvVars_host_unchanged (getenv : Getenv) (parseHost : HostParser) (base : Env)
    (hset : getenv "DOCKER_HOST" ≠ "")
    (hparse : parseHost (getenv "DOCKER_HOST") = .ok base.Host) :
    (overlayOSEnvVars getenv parseHost base).Host = base.Host ∧
    (overlayOSEnvVars getenv parseHost base).IsOldMinikube = base.IsOldMinikube ∧
    (overlayOSEnvVars getenv parseHost base).APIVersion =
      (if getenv "DOCKER_API_VERSION" ≠ "" then getenv "DOCKER_API_VERSION"
        else base.APIVersion) ∧
    (overlayOSEnvVars getenv parseHost base).CertPath =
      (if getenv "DOCKER_CERT_PATH" ≠ "" then getenv "DOCKER_CERT_PATH" else base.CertPath) ∧
    (overlayOSEnvVars getenv parseHost base).TLSVerify =
      (if getenv "DOCKER_TLS_VERIFY" ≠ "" then getenv "DOCKER_TLS_VERIFY"
        else base.TLSVerify) := by
  rw [overlay_same getenv parseHost base hset hparse]
  exact ⟨rest_Host _ _, rest_IsOldMinikube _ _, rest_APIVersion _ _, rest_CertPath _ _,
    rest_TLSVerify _ _⟩

/-- Witness of C4: DOCKER_HOST names the Minikube daemon the base already
points at, and only DOCKER_TLS_VERIFY is set besides. -/
theorem overlayOSEnvVars_host_unchanged_witness :
    overlayOSEnvVars
        (environ [("DOCKER_HOST", "tcp://192.168.99.100:2376"), ("DOCKER_TLS_VERIFY", "0")])
        scenarioParseHost
        { Host := "tcp://192.168.99.100:2376", APIVersion := "1.35", TLSVerify := "1",
          CertPath := "/home/user/.minikube/certs", IsOldMinikube := true } =
      { Host := "tcp://192.168.99.100:2376", APIVersion := "1.35", TLSVerify := "0",
        CertPath := "/home/user/.minikube/certs", IsOldMinikube := true } := by
  have h := overlayOSEnvVars_host_unchanged
    (environ [("DOCKER_HOST", "tcp://192.168.99.100:2376"), ("DOCKER_TLS_VERIFY", "0")])
    scenarioParseHost
    { Host := "tcp://192.168.99.100:2376", APIVersion := "1.35", TLSVerify := "1",
      CertPath := "/home/user/.minikube/certs", IsOldMinikube := true } (by decide) (by rfl)
  exact Env.ext_fields h.1 h.2.2.1 h.2.2.2.2 h.2.2.2.1 h.2.1 (by rfl)

/-! ## The cluster resolver and the version gate -/

/-- C5: with the Docker runtime on Minikube, when the DockerEnv query fails
with `err` the cluster resolver returns exactly the environment that holds only
`err`, for every process environment, host parser and version query: no OS
overlay is applied. -/
theorem ProvideClusterEnv_minikube_query_failure (getenv : Getenv) (parseHost : HostParser)
    (parseTolerant : VersionParser) (mc : MinikubeClient) (err : GoError)
    (hfail : mc.DockerEnv = .error err) :
    ProvideClusterEnv getenv parseHost parseTolerant EnvMinikube RuntimeDocker mc =
      { Host := "", APIVersion := "", TLSVerify := "", CertPath := "", IsOldMinikube := false,
        Error := some err } := by
  simp [ProvideClusterEnv, hfail]

/-- Witness of C5: the query fails while DOCKER_HOST is unparsable and the
three other variables are set; the result carries the query error alone. -/
theorem ProvideClusterEnv_minikube_query_failure_witness :
    ProvideClusterEnv
        (environ [("DOCKER_HOST", "not a valid endpoint"), ("DOCKER_API_VERSION", "1.40"),
          ("DOCKER_CERT_PATH", "/certs"), ("DOCKER_TLS_VERIFY", "1")])
        scenarioParseHost scenarioParseTolerant EnvMinikube RuntimeDocker
        { DockerEnv := .error (GoError.new "minikube docker-env: exit status 64"),
          Version := .ok "1.7.0" } =
      { Error := some (GoError.new "minikube docker-env: exit status 64") } :=
  ProvideClusterEnv_minikube_query_failure
    (environ [("DOCKER_HOST", "not a valid endpoint"), ("DOCKER_API_VERSION", "1.40"),
      ("DOCKER_CERT_PATH", "/certs"), ("DOCKER_TLS_VERIFY", "1")])
    scenarioParseHost scenarioParseTolerant
    { DockerEnv := .error (GoError.new "minikube docker-env: exit status 64"),
      Version := .ok "1.7.0" }
    (GoError.new "minikube docker-env: exit status 64") rfl

/-- C6: with the Docker runtime on Minikube, when the DockerEnv query succeeds
with the mapping `m` the cluster resolver returns the OS overlay of the base
whose host, API version, certificate path and TLS-verify are the values of `m`
at the four keys (empty when the key is absent or maps to the empty string) and
whose old-Minikube flag is the answer of the version gate. In particular, with
none of the four variables set and `m` holding only the host
tcp://192.168.99.100:2376, the version 1.7.0 gives that host with the flag
raised and the version 1.9.0 gives it with the flag down. -/
theorem ProvideClusterEnv_minikube_success (getenv : Getenv) (parseHost : HostParser)
    (parseTolerant : VersionParser) (mc : MinikubeClient) (m : StringMap)
    (hm : mc.DockerEnv = .ok m) :
    ProvideClusterEnv getenv parseHost parseTolerant EnvMinikube RuntimeDocker mc =
      overlayOSEnvVars getenv parseHost
        { Host := m.index "DOCKER_HOST", APIVersion := m.index "DOCKER_API_VERSION",
          TLSVerify := m.index "DOCKER_TLS_VERIFY", CertPath := m.index "DOCKER_CERT_PATH",
          IsOldMinikube := isOldMinikube parseTolerant mc, Error := none } ∧
    (getenv "DOCKER_HOST" = "" → getenv "DOCKER_API_VERSION" = "" →
      getenv "DOCKER_CERT_PATH" = "" → getenv "DOCKER_TLS_VERIFY" = "" →
      m = [("DOCKER_HOST", "tcp://192.168.99.100:2376")] →
        (mc.Version = .ok "1.7.0" →
          parseTolerant "1.7.0" = .ok { Major := 1, Minor := 7, Patch := 0 } →
          ProvideClusterEnv getenv parseHost parseTolerant EnvMinikube RuntimeDocker mc =
            { Host := "tcp://192.168.99.100:2376", IsOldMinikube := true }) ∧
        (mc.Version = .ok "1.9.0" →
          parseTolerant "1.9.0" = .ok { Major := 1, Minor := 9, Patch := 0 } →
          ProvideClusterEnv getenv parseHost parseTolerant EnvMinikube RuntimeDocker mc =
            { Host := "tcp://192.168.99.100:2376", IsOldMinikube := false })) := by
  have key := cluster_minikube_ok getenv parseHost parseTolerant mc m hm
  refine ⟨by rw [key, minikubeBase_eq], ?_⟩
  intro h0 h1 h2 h3 hmap
  have hrest : ∀ b : Bool, overlayOSEnvVars getenv parseHost (minikubeBase m b) =
      { Host := "tcp://192.168.99.100:2376", IsOldMinikube := b } := by
    intro b
    rw [overlay_unset getenv parseHost _ h0, minikubeBase_eq, hmap]
    apply Env.ext_fields
    · rw [rest_Host]; rfl
    · rw [rest_APIVersion]; simp [h1]; rfl
    · rw [rest_TLSVerify]; simp [h3]; rfl
    · rw [rest_CertPath]; simp [h2]; rfl
    · rw [rest_IsOldMinikube]
    · rw [rest_Error]
  constructor
  · intro hv hp
    rw [key, hrest, isOldMinikube_parsed parseTolerant mc "1.7.0" _ hv hp]
    rfl
  · intro hv hp
    rw [key, hrest, isOldMinikube_parsed parseTolerant mc "1.9.0" _ hv hp]
    rfl

/-- Witness of C6: the two scenarios, Minikube 1.7.0 and Minikube 1.9.0, with
no OS variable set. -/
theorem ProvideClusterEnv_minikube_success_witness :
    ProvideClusterEnv (environ []) scenarioParseHost scenarioParseTolerant EnvMinikube
        RuntimeDocker
        { DockerEnv := .ok [("DOCKER_HOST", "tcp://192.168.99.100:2376")],
          Version := .ok "1.7.0" } =
      { Host := "tcp://192.168.99.100:2376", IsOldMinikube := true } ∧
    ProvideClusterEnv (environ []) scenarioParseHost scenarioParseTolerant EnvMinikube
        RuntimeDocker
        { DockerEnv := .ok [("DOCKER_HOST", "tcp://192.168.99.100:2376")],
          Version := .ok "1.9.0" } =
      { Host := "tcp://192.168.99.100:2376", IsOldMinikube := false } :=
  ⟨((ProvideClusterEnv_minikube_success (environ []) scenarioParseHost scenarioParseTolerant
      { DockerEnv := .ok [("DOCKER_HOST", "tcp://192.168.99.100:2376")], Version := .ok "1.7.0" }
      [("DOCKER_HOST", "tcp://192.168.99.100:2376")] rfl).2 rfl rfl rfl rfl rfl).1 rfl rfl,
   ((ProvideClusterEnv_minikube_success (environ []) scenarioParseHost scenarioParseTolerant
      { DockerEnv := .ok [("DOCKER_HOST", "tcp://192.168.99.100:2376")], Version := .ok "1.9.0" }
      [("DOCKER_HOST", "tcp://192.168.99.100:2376")] rfl).2 rfl rfl rfl rfl rfl).2 rfl rfl⟩

/-- C7: when the version query succeeds with a string that parses tolerantly
to the version `v`, the version gate answers true exactly when `v` is less than
or equal to 1.8.0 in the order of semantic versions, that is, exactly when its
version numbers are at most 1.8.0; so it answers true when `v` is less than
1.8.0, true when `v` compares equal to 1.8.0, and false when `v` is greater
than 1.8.0. -/
theorem isOldMinikube_threshold (parseTolerant : VersionParser) (mc : MinikubeClient)
    (s : String) (v : Version) (hv : mc.Version = .ok s) (hp : parseTolerant s = .ok v) :
    (isOldMinikube parseTolerant mc = true ↔ v.LTE minMinikubeVersionBuildkit = true) ∧
    (isOldMinikube parseTolerant mc = true ↔
      (v.Major < 1 ∨ (v.Major = 1 ∧ (v.Minor < 8 ∨ (v.Minor = 8 ∧ v.Patch = 0))))) ∧
    (v.LT minMinikubeVersionBuildkit = true → isOldMinikube parseTolerant mc = true) ∧
    (v.Compare minMinikubeVersionBuildkit = 0 → isOldMinikube parseTolerant mc = true) ∧
    (v.GT minMinikubeVersionBuildkit = true → isOldMinikube parseTolerant mc = false) := by
  have hiff : isOldMinikube parseTolerant mc = true ↔
      v.LTE minMinikubeVersionBuildkit = true := by
    rw [isOldMinikube_parsed parseTolerant mc s v hv hp, threshold_GTE_iff, LTE_threshold_iff]
  refine ⟨hiff, ?_, ?_, ?_, ?_⟩
  · rw [isOldMinikube_parsed parseTolerant mc s v hv hp, threshold_GTE_iff]
  · intro hlt
    apply hiff.2
    simp only [Version.LT, decide_eq_true_eq] at hlt
    simp [Version.LTE, hlt]
  · intro heq
    apply hiff.2
    simp [Version.LTE, heq]
  · intro hgt
    have hn : ¬ (isOldMinikube parseTolerant mc = true) := by
      intro ht
      have hle := hiff.1 ht
      simp only [Version.GT, decide_eq_true_eq] at hgt
      simp [Version.LTE, hgt] at hle
    simpa using hn

/-- Witness of C7: Minikube reports v1.7.0, which is below the threshold. -/
theorem isOldMinikube_threshold_witness :
    isOldMinikube scenarioParseTolerant
      { DockerEnv := .ok [], Version := .ok "v1.7.0" } = true :=
  (isOldMinikube_threshold scenarioParseTolerant
    { DockerEnv := .ok [], Version := .ok "v1.7.0" } "v1.7.0"
    { Major := 1, Minor := 7, Patch := 0 } rfl rfl).2.2.1 (by decide)

/-- C8: a failure of the version gate never propagates. With the Docker
runtime on Minikube and a successful DockerEnv query, when the version query
fails or returns a string that does not parse, the gate answers false and the
cluster resolver returns what the OS overlay makes of the base with the
old-Minikube flag down: the flag of the result is false, and its error is set
exactly when DOCKER_HOST is non-empty and does not parse. -/
theorem ProvideClusterEnv_version_failure (getenv : Getenv) (parseHost : HostParser)
    (parseTolerant : VersionParser) (mc : MinikubeClient) (m : StringMap)
    (hm : mc.DockerEnv = .ok m)
    (hfail : (∃ e, mc.Version = .error e) ∨
      (∃ s e, mc.Version = .ok s ∧ parseTolerant s = .error e)) :
    isOldMinikube parseTolerant mc = false ∧
    ProvideClusterEnv getenv parseHost parseTolerant EnvMinikube RuntimeDocker mc =
      overlayOSEnvVars getenv parseHost
        { Host := m.index "DOCKER_HOST", APIVersion := m.index "DOCKER_API_VERSION",
          TLSVerify := m.index "DOCKER_TLS_VERIFY", CertPath := m.index "DOCKER_CERT_PATH",
          IsOldMinikube := false, Error := none } ∧
    (ProvideClusterEnv getenv parseHost parseTolerant EnvMinikube RuntimeDocker
      mc).IsOldMinikube = false ∧
    ((ProvideClusterEnv getenv parseHost parseTolerant EnvMinikube RuntimeDocker
      mc).Error ≠ none ↔
      (getenv "DOCKER_HOST" ≠ "" ∧ ∃ e, parseHost (getenv "DOCKER_HOST") = .error e)) := by
  have hgate := isOldMinikube_failed parseTolerant mc hfail
  have key := cluster_minikube_ok getenv parseHost parseTolerant mc m hm
  rw [hgate, minikubeBase_eq] at key
  refine ⟨hgate, key, ?_, ?_⟩
  · rw [key]
    exact overlay_flag_of_base_false getenv parseHost _ rfl
  · rw [key]
    exact overlay_error_iff getenv parseHost _ rfl

/-- Witness of C8: the version query fails, the operator has set an API
version, and the result is the overlay of the Minikube values with the flag
down and no error. -/
theorem ProvideClusterEnv_version_failure_witness :
    ProvideClusterEnv (environ [("DOCKER_API_VERSION", "1.40")]) scenarioParseHost
        scenarioParseTolerant EnvMinikube RuntimeDocker
        { DockerEnv := .ok [("DOCKER_HOST", "tcp://192.168.99.100:2376"),
            ("DOCKER_TLS_VERIFY", "1")],
          Version := .error (GoError.new "minikube version: exit status 1") } =
      overlayOSEnvVars (environ [("DOCKER_API_VERSION", "1.40")]) scenarioParseHost
        { Host := "tcp://192.168.99.100:2376", TLSVerify := "1" } :=
  (ProvideClusterEnv_version_failure (environ [("DOCKER_API_VERSION", "1.40")])
    scenarioParseHost scenarioParseTolerant
    { DockerEnv := .ok [("DOCKER_HOST", "tcp://192.168.99.100:2376"),
        ("DOCKER_TLS_VERIFY", "1")],
      Version := .error (GoError.new "minikube version: exit status 1") }
    [("DOCKER_HOST", "tcp://192.168.99.100:2376"), ("DOCKER_TLS_VERIFY", "1")] rfl
    (Or.inl ⟨GoError.new "minikube version: exit status 1", rfl⟩)).2.1

/-! ## The local resolver -/

/-- C9: the local resolver inherits the old-Minikube flag exactly when the
locally resolved host equals the host of the cluster environment: the flag of
the result is true if and only if the two hosts are equal and the flag of the
cluster environment is true, and it is false when the hosts differ. In
particular, with DOCKER_HOST unset and the cluster host
tcp://192.168.99.100:2376, the local host is empty and the flag is not
inherited. -/
theorem ProvideLocalEnv_flag_inheritance (getenv : Getenv) (parseHost : HostParser)
    (cEnv : ClusterEnv) :
    ((ProvideLocalEnv getenv parseHost cEnv).IsOldMinikube = true ↔
      ((ProvideLocalEnv getenv parseHost cEnv).Host = cEnv.Host ∧
        cEnv.IsOldMinikube = true)) ∧
    ((ProvideLocalEnv getenv parseHost cEnv).Host ≠ cEnv.Host →
      (ProvideLocalEnv getenv parseHost cEnv).IsOldMinikube = false) ∧
    (getenv "DOCKER_HOST" = "" → cEnv.Host = "tcp://192.168.99.100:2376" →
      (ProvideLocalEnv getenv parseHost cEnv).Host = "" ∧
      (ProvideLocalEnv getenv parseHost cEnv).IsOldMinikube = false) := by
  have hflag := overlay_flag_of_base_false getenv parseHost {} rfl
  have hiff : (ProvideLocalEnv getenv parseHost cEnv).IsOldMinikube = true ↔
      ((ProvideLocalEnv getenv parseHost cEnv).Host = cEnv.Host ∧
        cEnv.IsOldMinikube = true) := by
    unfold ProvideLocalEnv
    by_cases hh : cEnv.Host = (overlayOSEnvVars getenv parseHost {}).Host
    · simp [hh]
    · simp only [hh, if_false, hflag]
      constructor
      · intro hc
        exact absurd hc (by decide)
      · intro hc
        exact absurd hc.1.symm hh
  have hdiff : (ProvideLocalEnv getenv parseHost cEnv).Host ≠ cEnv.Host →
      (ProvideLocalEnv getenv parseHost cEnv).IsOldMinikube = false := by
    intro hne
    cases hb : (ProvideLocalEnv getenv parseHost cEnv).IsOldMinikube with
    | false => rfl
    | true => exact absurd (hiff.1 hb).1 hne
  refine ⟨hiff, hdiff, ?_⟩
  intro hunset hc
  have hhost : (ProvideLocalEnv getenv parseHost cEnv).Host = "" := by
    rw [local_Host, overlay_unset getenv parseHost {} hunset, rest_Host]
  refine ⟨hhost, hdiff ?_⟩
  rw [hhost, hc]
  decide

/-- Witness of C9: DOCKER_HOST is unset and the cluster environment is an old
Minikube at tcp://192.168.99.100:2376; the local host is empty and the flag is
not inherited. -/
theorem ProvideLocalEnv_flag_inheritance_witness :
    (ProvideLocalEnv (environ []) scenarioParseHost
      { Host := "tcp://192.168.99.100:2376", IsOldMinikube := true }).Host = "" ∧
    (ProvideLocalEnv (environ []) scenarioParseHost
      { Host := "tcp://192.168.99.100:2376", IsOldMinikube := true }).IsOldMinikube = false :=
  (ProvideLocalEnv_flag_inheritance (environ []) scenarioParseHost
    { Host := "tcp://192.168.99.100:2376", IsOldMinikube := true }).2.2 rfl rfl

/-! ## The operator override -/

/-- C10: with the Docker runtime on Minikube, when the DockerEnv query succeeds
with the host `m[DOCKER_HOST]` and the operator has set DOCKER_HOST to a value
that parses to another host `h`, the cluster resolver returns the host `h`, the
old-Minikube flag down whatever the version query returns, and the API version,
certificate path and TLS-verify of the OS variables alone; no value supplied by
Minikube remains. -/
theorem ProvideClusterEnv_operator_override (getenv : Getenv) (parseHost : HostParser)
    (parseTolerant : VersionParser) (mc : MinikubeClient) (m : StringMap) (h : String)
    (hm : mc.DockerEnv = .ok m) (hset : getenv "DOCKER_HOST" ≠ "")
    (hparse : parseHost (getenv "DOCKER_HOST") = .ok h) (hne : h ≠ m.index "DOCKER_HOST") :
    ProvideClusterEnv getenv parseHost parseTolerant EnvMinikube RuntimeDocker mc =
      { Host := h, APIVersion := getenv "DOCKER_API_VERSION",
        TLSVerify := getenv "DOCKER_TLS_VERIFY", CertPath := getenv "DOCKER_CERT_PATH",
        IsOldMinikube := false, Error := none } := by
  rw [cluster_minikube_ok getenv parseHost parseTolerant mc m hm, minikubeBase_eq,
    overlay_changed getenv parseHost _ h hset hparse hne, rest_fresh]

/-- Witness of C10: the operator sets DOCKER_HOST to tcp://localhost:2375 while
an old Minikube (1.7.0) offers tcp://192.168.99.100:2376 with TLS settings. -/
theorem ProvideClusterEnv_operator_override_witness :
    ProvideClusterEnv (environ [("DOCKER_HOST", "tcp://localhost:2375")]) scenarioParseHost
        scenarioParseTolerant EnvMinikube RuntimeDocker
        { DockerEnv := .ok [("DOCKER_HOST", "tcp://192.168.99.100:2376"),
            ("DOCKER_TLS_VERIFY", "1"), ("DOCKER_CERT_PATH", "/home/user/.minikube/certs"),
            ("DOCKER_API_VERSION", "1.35")],
          Version := .ok "1.7.0" } =
      { Host := "tcp://localhost:2375" } :=
  ProvideClusterEnv_operator_override (environ [("DOCKER_HOST", "tcp://localhost:2375")])
    scenarioParseHost scenarioParseTolerant
    { DockerEnv := .ok [("DOCKER_HOST", "tcp://192.168.99.100:2376"),
        ("DOCKER_TLS_VERIFY", "1"), ("DOCKER_CERT_PATH", "/home/user/.minikube/certs"),
        ("DOCKER_API_VERSION", "1.35")],
      Version := .ok "1.7.0" }
    [("DOCKER_HOST", "tcp://192.168.99.100:2376"), ("DOCKER_TLS_VERIFY", "1"),
      ("DOCKER_CERT_PATH", "/home/user/.minikube/certs"), ("DOCKER_API_VERSION", "1.35")]
    "tcp://localhost:2375" rfl (by decide) rfl (by decide)

/-! ## Serialisation to an environment list -/

/-- C11: `AsEnviron` lists the entries DOCKER_HOST, DOCKER_API_VERSION,
DOCKER_CERT_PATH and DOCKER_TLS_VERIFY in this order, with exactly the entries
of the empty fields left out; its length is the number of non-empty fields
among the four, it is empty when all four are empty, and it does not depend on
the old-Minikube flag or on the error. -/
theorem AsEnviron_order_and_omission (e : Env) :
    e.AsEnviron =
      ([(e.Host, "DOCKER_HOST=" ++ e.Host),
        (e.APIVersion, "DOCKER_API_VERSION=" ++ e.APIVersion),
        (e.CertPath, "DOCKER_CERT_PATH=" ++ e.CertPath),
        (e.TLSVerify, "DOCKER_TLS_VERIFY=" ++ e.TLSVerify)].filter
          (fun p => decide (p.1 ≠ ""))).map Prod.snd ∧
    e.AsEnviron.length =
      ([e.Host, e.APIVersion, e.CertPath, e.TLSVerify].filter
        (fun s => decide (s ≠ ""))).length ∧
    (e.Host = "" → e.APIVersion = "" → e.CertPath = "" → e.TLSVerify = "" →
      e.AsEnviron = []) ∧
    (∀ (flag : Bool) (err : Option GoError),
      ({ e with IsOldMinikube := flag, Error := err } : Env).AsEnviron = e.AsEnviron) := by
  refine ⟨?_, ?_, ?_, ?_⟩
  · unfold Env.AsEnviron
    by_cases h1 : e.Host = "" <;> by_cases h2 : e.APIVersion = "" <;>
    by_cases h3 : e.CertPath = "" <;> by_cases h4 : e.TLSVerify = "" <;>
    simp [h1, h2, h3, h4, List.filter_cons]
  · unfold Env.AsEnviron
    by_cases h1 : e.Host = "" <;> by_cases h2 : e.APIVersion = "" <;>
    by_cases h3 : e.CertPath = "" <;> by_cases h4 : e.TLSVerify = "" <;>
    simp [h1, h2, h3, h4, List.filter_cons]
  · intro h1 h2 h3 h4
    simp [Env.AsEnviron, h1, h2, h3, h4]
  · intro flag err
    rfl

/-- Witness of C11: an environment with a host and a TLS-verify value only,
and the environment with four empty fields but a raised flag. -/
theorem AsEnviron_order_and_omission_witness :
    ({ Host := "tcp://192.168.99.100:2376", TLSVerify := "1", IsOldMinikube := true }
      : Env).AsEnviron = ["DOCKER_HOST=tcp://192.168.99.100:2376", "DOCKER_TLS_VERIFY=1"] ∧
    ({ IsOldMinikube := true, Error := some (GoError.new "boom") } : Env).AsEnviron = [] :=
  ⟨(AsEnviron_order_and_omission
      { Host := "tcp://192.168.99.100:2376", TLSVerify := "1", IsOldMinikube := true }).1.trans
      (by decide),
   (AsEnviron_order_and_omission
      { IsOldMinikube := true, Error := some (GoError.new "boom") }).2.2.1 rfl rfl rfl rfl⟩

/-! ## The cluster resolver off Minikube -/

/-- C12: for every runtime other than Docker the cluster resolver returns the
OS overlay of the empty environment, whatever the cluster kind and the
Minikube client are: neither query influences the result, and the old-Minikube
flag is false. -/
theorem ProvideClusterEnv_non_docker (getenv : Getenv) (parseHost : HostParser)
    (parseTolerant : VersionParser) (env : K8sEnv) (runtime : Runtime) (mc : MinikubeClient)
    (hrt : runtime ≠ RuntimeDocker) :
    ProvideClusterEnv getenv parseHost parseTolerant env runtime mc =
      overlayOSEnvVars getenv parseHost {} ∧
    (ProvideClusterEnv getenv parseHost parseTolerant env runtime mc).IsOldMinikube = false := by
  have key : ProvideClusterEnv getenv parseHost parseTolerant env runtime mc =
      overlayOSEnvVars getenv parseHost {} := by
    simp [ProvideClusterEnv, hrt]
  refine ⟨key, ?_⟩
  rw [key]
  exact overlay_flag_of_base_false getenv parseHost {} rfl

/-- Witness of C12: a containerd runtime on Minikube, with a failing DockerEnv
query and an old version; the result is the empty environment with the API
version of the operator. -/
theorem ProvideClusterEnv_non_docker_witness :
    ProvideClusterEnv (environ [("DOCKER_API_VERSION", "1.40")]) scenarioParseHost
        scenarioParseTolerant EnvMinikube "containerd"
        { DockerEnv := .error (GoError.new "minikube docker-env: exit status 64"),
          Version := .ok "1.7.0" } =
      overlayOSEnvVars (environ [("DOCKER_API_VERSION", "1.40")]) scenarioParseHost {} :=
  (ProvideClusterEnv_non_docker (environ [("DOCKER_API_VERSION", "1.40")]) scenarioParseHost
    scenarioParseTolerant EnvMinikube "containerd"
    { DockerEnv := .error (GoError.new "minikube docker-env: exit status 64"),
      Version := .ok "1.7.0" } (by decide)).1

/-- C13: with the Docker runtime on MicroK8s the cluster resolver returns the
OS overlay of the environment that holds only the fixed MicroK8s socket as
host, whatever the Minikube client is; with none of the four variables set the
result is exactly that environment. -/
theorem ProvideClusterEnv_microk8s (getenv : Getenv) (parseHost : HostParser)
    (parseTolerant : VersionParser) (mc : MinikubeClient) :
    ProvideClusterEnv getenv parseHost parseTolerant EnvMicroK8s RuntimeDocker mc =
      overlayOSEnvVars getenv parseHost { Host := microK8sDockerHost } ∧
    (getenv "DOCKER_HOST" = "" → getenv "DOCKER_API_VERSION" = "" →
      getenv "DOCKER_CERT_PATH" = "" → getenv "DOCKER_TLS_VERIFY" = "" →
      ProvideClusterEnv getenv parseHost parseTolerant EnvMicroK8s RuntimeDocker mc =
        { Host := microK8sDockerHost, APIVersion := "", TLSVerify := "", CertPath := "",
          IsOldMinikube := false, Error := none }) := by
  have hne : EnvMicroK8s ≠ EnvMinikube := by decide
  have key : ProvideClusterEnv getenv parseHost parseTolerant EnvMicroK8s RuntimeDocker mc =
      overlayOSEnvVars getenv parseHost { Host := microK8sDockerHost } := by
    simp [ProvideClusterEnv, hne]
  refine ⟨key, ?_⟩
  intro h0 h1 h2 h3
  rw [key, overlay_unset getenv parseHost _ h0, rest_fresh, h1, h2, h3]

/-- Witness of C13: MicroK8s with no OS variable set and a Minikube client
whose queries fail. -/
theorem ProvideClusterEnv_microk8s_witness :
    ProvideClusterEnv (environ []) scenarioParseHost scenarioParseTolerant EnvMicroK8s
        RuntimeDocker
        { DockerEnv := .error (GoError.new "minikube docker-env: exit status 64"),
          Version := .error (GoError.new "minikube version: exit status 1") } =
      { Host := "unix:///var/snap/microk8s/current/docker.sock" } :=
  (ProvideClusterEnv_microk8s (environ []) scenarioParseHost scenarioParseTolerant
    { DockerEnv := .error (GoError.new "minikube docker-env: exit status 64"),
      Version := .error (GoError.new "minikube version: exit status 1") }).2 rfl rfl rfl rfl

/-! ## Errors of the local resolver -/

/-- C14: the error of the local resolver is the error of the OS overlay of the
empty environment: it is set exactly when DOCKER_HOST is non-empty and does not
parse, whatever the cluster environment carries, its error included. -/
theorem ProvideLocalEnv_error_provenance (getenv : Getenv) (parseHost : HostParser)
    (cEnv : ClusterEnv) :
    (ProvideLocalEnv getenv parseHost cEnv).Error =
      (overlayOSEnvVars getenv parseHost {}).Error ∧
    ((ProvideLocalEnv getenv parseHost cEnv).Error ≠ none ↔
      (getenv "DOCKER_HOST" ≠ "" ∧ ∃ e, parseHost (getenv "DOCKER_HOST") = .error e)) := by
  refine ⟨local_Error getenv parseHost cEnv, ?_⟩
  rw [local_Error]
  exact overlay_error_iff getenv parseHost {} rfl

/-- C15, as amended: when DOCKER_HOST is non-empty and does not parse, the
local resolver returns the wrapped parse error with an empty host, API version,
TLS-verify and certificate path; the old-Minikube flag is the flag of the
cluster environment when the host of the cluster environment is empty too, and
false otherwise. -/
theorem ProvideLocalEnv_host_unparsable (getenv : Getenv) (parseHost : HostParser)
    (cEnv : ClusterEnv) (err : GoError) (hset : getenv "DOCKER_HOST" ≠ "")
    (hparse : parseHost (getenv "DOCKER_HOST") = .error err) :
    ProvideLocalEnv getenv parseHost cEnv =
      { Host := "", APIVersion := "", TLSVerify := "", CertPath := "",
        IsOldMinikube := (decide (cEnv.Host = "") && cEnv.IsOldMinikube),
        Error := some (GoError.wrap err "ProvideDockerEnv") } := by
  unfold ProvideLocalEnv
  rw [overlay_unparsable getenv parseHost {} err hset hparse]
  by_cases hh : cEnv.Host = ""
  · simp [hh]
  · simp [hh]

/-- Witness of the amended C15: an old Minikube at tcp://192.168.99.100:2376
and an unparsable DOCKER_HOST; the flag stays down. -/
theorem ProvideLocalEnv_host_unparsable_witness :
    ProvideLocalEnv (environ [("DOCKER_HOST", "not a valid endpoint")]) scenarioParseHost
        { Host := "tcp://192.168.99.100:2376", IsOldMinikube := true } =
      { Error := some (GoError.wrap (GoError.new "Invalid bind address format")
          "ProvideDockerEnv") } :=
  ProvideLocalEnv_host_unparsable (environ [("DOCKER_HOST", "not a valid endpoint")])
    scenarioParseHost { Host := "tcp://192.168.99.100:2376", IsOldMinikube := true }
    (GoError.new "Invalid bind address format") (by decide) rfl

/-- Counterexample to C15 as stated: DOCKER_HOST is non-empty and does not
parse, the cluster environment has an empty host and a raised flag, and the
local resolver returns the flag raised. -/
theorem ProvideLocalEnv_host_unparsable_counterexample :
    environ [("DOCKER_HOST", "not a valid endpoint")] "DOCKER_HOST" ≠ "" ∧
    scenarioParseHost (environ [("DOCKER_HOST", "not a valid endpoint")] "DOCKER_HOST") =
      .error (GoError.new "Invalid bind address format") ∧
    (ProvideLocalEnv (environ [("DOCKER_HOST", "not a valid endpoint")]) scenarioParseHost
      { Host := "", IsOldMinikube := true }).IsOldMinikube = true := by
  refine ⟨by decide, rfl, rfl⟩

/-! ## Algebraic properties of the overlay -/

/-- C16: under a fixed process environment and host parser the OS overlay is
idempotent: applying it to its own result changes nothing, in the success case
and in the parse-failure case alike. -/
theorem overlayOSEnvVars_idempotent (getenv : Getenv) (parseHost : HostParser) (base : Env) :
    overlayOSEnvVars getenv parseHost (overlayOSEnvVars getenv parseHost base) =
      overlayOSEnvVars getenv parseHost base := by
  by_cases hset : getenv "DOCKER_HOST" = ""
  · rw [overlay_unset getenv parseHost base hset, overlay_unset getenv parseHost _ hset,
      rest_idem]
  · cases hp : parseHost (getenv "DOCKER_HOST") with
    | error e =>
      rw [overlay_unparsable getenv parseHost base e hset hp,
        overlay_unparsable getenv parseHost _ e hset hp]
    | ok h =>
      have hstep : ∀ r : Env, r.Host = h →
          overlayOSEnvVars getenv parseHost (overlayOSEnvVars.rest getenv r) =
            overlayOSEnvVars.rest getenv r := by
        intro r hr
        have hp2 : parseHost (getenv "DOCKER_HOST") =
            .ok (overlayOSEnvVars.rest getenv r).Host := by
          rw [rest_Host, hr, hp]
        rw [overlay_same getenv parseHost _ hset hp2, rest_idem]
      by_cases hne : h = base.Host
      · subst hne
        rw [overlay_same getenv parseHost base hset hp]
        exact hstep base rfl
      · rw [overlay_changed getenv parseHost base h hset hp hne]
        exact hstep { Host := h } rfl

/-- The four recognised variables read from the environment list of
`AsEnviron` are the four fields. -/
theorem environFromList_AsEnviron (e : Env) :
    environFromList e.AsEnviron "DOCKER_HOST" = e.Host ∧
    environFromList e.AsEnviron "DOCKER_API_VERSION" = e.APIVersion ∧
    environFromList e.AsEnviron "DOCKER_CERT_PATH" = e.CertPath ∧
    environFromList e.AsEnviron "DOCKER_TLS_VERIFY" = e.TLSVerify := by
  have hh : ∀ v, entryValue "DOCKER_HOST" ("DOCKER_HOST=" ++ v) = some v :=
    entryValue_hit "DOCKER_HOST"
  have ha : ∀ v, entryValue "DOCKER_API_VERSION" ("DOCKER_API_VERSION=" ++ v) = some v :=
    entryValue_hit "DOCKER_API_VERSION"
  have hc : ∀ v, entryValue "DOCKER_CERT_PATH" ("DOCKER_CERT_PATH=" ++ v) = some v :=
    entryValue_hit "DOCKER_CERT_PATH"
  have ht : ∀ v, entryValue "DOCKER_TLS_VERIFY" ("DOCKER_TLS_VERIFY=" ++ v) = some v :=
    entryValue_hit "DOCKER_TLS_VERIFY"
  have hha : ∀ v, entryValue "DOCKER_HOST" ("DOCKER_API_VERSION=" ++ v) = none :=
    fun v => entryValue_miss "DOCKER_HOST" "DOCKER_API_VERSION" v (by decide) (by decide)
  have hhc : ∀ v, entryValue "DOCKER_HOST" ("DOCKER_CERT_PATH=" ++ v) = none :=
    fun v => entryValue_miss "DOCKER_HOST" "DOCKER_CERT_PATH" v (by decide) (by decide)
  have hht : ∀ v, entryValue "DOCKER_HOST" ("DOCKER_TLS_VERIFY=" ++ v) = none :=
    fun v => entryValue_miss "DOCKER_HOST" "DOCKER_TLS_VERIFY" v (by decide) (by decide)
  have hah : ∀ v, entryValue "DOCKER_API_VERSION" ("DOCKER_HOST=" ++ v) = none :=
    fun v => entryValue_miss "DOCKER_API_VERSION" "DOCKER_HOST" v (by decide) (by decide)
  have hac : ∀ v, entryValue "DOCKER_API_VERSION" ("DOCKER_CERT_PATH=" ++ v) = none :=
    fun v => entryValue_miss "DOCKER_API_VERSION" "DOCKER_CERT_PATH" v (by decide) (by decide)
  have hat : ∀ v, entryValue "DOCKER_API_VERSION" ("DOCKER_TLS_VERIFY=" ++ v) = none :=
    fun v => entryValue_miss "DOCKER_API_VERSION" "DOCKER_TLS_VERIFY" v (by decide) (by decide)
  have hch : ∀ v, entryValue "DOCKER_CERT_PATH" ("DOCKER_HOST=" ++ v) = none :=
    fun v => entryValue_miss "DOCKER_CERT_PATH" "DOCKER_HOST" v (by decide) (by decide)
  have hca : ∀ v, entryValue "DOCKER_CERT_PATH" ("DOCKER_API_VERSION=" ++ v) = none :=
    fun v => entryValue_miss "DOCKER_CERT_PATH" "DOCKER_API_VERSION" v (by decide) (by decide)
  have hct : ∀ v, entryValue "DOCKER_CERT_PATH" ("DOCKER_TLS_VERIFY=" ++ v) = none :=
    fun v => entryValue_miss "DOCKER_CERT_PATH" "DOCKER_TLS_VERIFY" v (by decide) (by decide)
  have hth : ∀ v, entryValue "DOCKER_TLS_VERIFY" ("DOCKER_HOST=" ++ v) = none :=
    fun v => entryValue_miss "DOCKER_TLS_VERIFY" "DOCKER_HOST" v (by decide) (by decide)
  have hta : ∀ v, entryValue "DOCKER_TLS_VERIFY" ("DOCKER_API_VERSION=" ++ v) = none :=
    fun v => entryValue_miss "DOCKER_TLS_VERIFY" "DOCKER_API_VERSION" v (by decide) (by decide)
  have htc : ∀ v, entryValue "DOCKER_TLS_VERIFY" ("DOCKER_CERT_PATH=" ++ v) = none :=
    fun v => entryValue_miss "DOCKER_TLS_VERIFY" "DOCKER_CERT_PATH" v (by decide) (by decide)
  unfold environFromList Env.AsEnviron
  by_cases h1 : e.Host = "" <;> by_cases h2 : e.APIVersion = "" <;>
  by_cases h3 : e.CertPath = "" <;> by_cases h4 : e.TLSVerify = "" <;>
  simp [h1, h2, h3, h4, List.findSome?_cons, hh, ha, hc, ht, hha, hhc, hht, hah, hac, hat,
    hch, hca, hct, hth, hta, htc]

/-- C17: for an environment `e` whose host is empty or is returned unchanged by
the host parser, in a process started with exactly the environment list
`e.AsEnviron()` the OS overlay of the empty environment has no error and the
same host, API version, certificate path and TLS-verify as `e`. -/
theorem AsEnviron_overlay_round_trip (parseHost : HostParser) (e : Env)
    (hfix : e.Host = "" ∨ parseHost e.Host = .ok e.Host) :
    (overlayOSEnvVars (environFromList e.AsEnviron) parseHost {}).Error = none ∧
    (overlayOSEnvVars (environFromList e.AsEnviron) parseHost {}).Host = e.Host ∧
    (overlayOSEnvVars (environFromList e.AsEnviron) parseHost {}).APIVersion = e.APIVersion ∧
    (overlayOSEnvVars (environFromList e.AsEnviron) parseHost {}).CertPath = e.CertPath ∧
    (overlayOSEnvVars (environFromList e.AsEnviron) parseHost {}).TLSVerify = e.TLSVerify := by
  obtain ⟨g0, g1, g2, g3⟩ := environFromList_AsEnviron e
  have hall : overlayOSEnvVars (environFromList e.AsEnviron) parseHost {} =
      { Host := e.Host, APIVersion := e.APIVersion, TLSVerify := e.TLSVerify,
        CertPath := e.CertPath, IsOldMinikube := false, Error := none } := by
    by_cases h0 : e.Host = ""
    · have hunset : environFromList e.AsEnviron "DOCKER_HOST" = "" := by rw [g0, h0]
      rw [overlay_unset _ parseHost {} hunset]
      have hf := rest_fresh (environFromList e.AsEnviron) ""
      rw [g1, g2, g3] at hf
      rw [h0]
      exact hf
    · have hp : parseHost e.Host = .ok e.Host := by
        rcases hfix with h | h
        · exact absurd h h0
        · exact h
      have hset : environFromList e.AsEnviron "DOCKER_HOST" ≠ "" := by rw [g0]; exact h0
      have hp2 : parseHost (environFromList e.AsEnviron "DOCKER_HOST") = .ok e.Host := by
        rw [g0, hp]
      have hne : e.Host ≠ ({} : Env).Host := h0
      rw [overlay_changed _ parseHost {} e.Host hset hp2 hne, rest_fresh, g1, g2, g3]
  rw [hall]
  exact ⟨rfl, rfl, rfl, rfl, rfl⟩

/-- Witness of C17: an environment with a host the parser accepts unchanged, a
certificate path and a TLS-verify value. -/
theorem AsEnviron_overlay_round_trip_witness :
    (overlayOSEnvVars
      (environFromList
        (Env.AsEnviron
          { Host := "tcp://192.168.99.100:2376", TLSVerify := "1",
            CertPath := "/home/user/.minikube/certs", IsOldMinikube := true }))
      scenarioParseHost {}).Host = "tcp://192.168.99.100:2376" :=
  (AsEnviron_overlay_round_trip scenarioParseHost
    { Host := "tcp://192.168.99.100:2376", TLSVerify := "1",
      CertPath := "/home/user/.minikube/certs", IsOldMinikube := true }
    (Or.inr rfl)).2.1

end Docker

namespace Caps

/-! ## Bit arithmetic -/

theorem and_0x7f (v : Nat) : v &&& 0x7f = v % 128 :=
  Nat.and_pow_two_sub_one_eq_mod v 7

theorem or_0x80 (x : Nat) (h : x < 128) : x ||| 0x80 = x + 128 := by
  have h1 : 2 ^ 7 * 1 + x = 2 ^ 7 * 1 ||| x := Nat.mul_add_lt_is_or (i := 7) (b := x) h 1
  have h2 : (2 ^ 7 * 1 : Nat) = 0x80 := by decide
  rw [h2] at h1
  rw [Nat.or_comm, ← h1]
  omega

theorem or_shiftLeft (acc x shift : Nat) (h : acc < 2 ^ shift) :
    acc ||| (x <<< shift) = acc + x * 2 ^ shift := by
  have := Nat.mul_add_lt_is_or (i := shift) (b := acc) h x
  rw [Nat.shiftLeft_eq, Nat.or_comm, Nat.mul_comm x, ← this]
  omega

theorem varintBytes_small (v : Nat) (h : v < 128) : varintBytes v = [toByte v] := by
  rw [varintBytes]
  simp [Nat.not_le.2 h]

theorem varintBytes_big (v : Nat) (h : 128 ≤ v) :
    varintBytes v = toByte (v &&& 0x7f ||| 0x80) :: varintBytes (v >>> 7) := by
  rw [varintBytes]
  simp [h]

theorem varintBytes_length_pos (v : Nat) : 0 < (varintBytes v).length := by
  by_cases h : v < 128
  · rw [varintBytes_small v h]; simp
  · rw [varintBytes_big v (by omega)]; simp

theorem shiftRight_lt_pow (v fuel : Nat) (h : v < 128 ^ (fuel + 1)) : v >>> 7 < 128 ^ fuel := by
  rw [Nat.shiftRight_eq_div_pow]
  rw [Nat.div_lt_iff_lt_mul (by decide)]
  rw [Nat.pow_succ] at h
  exact h

/-- The loop of `sovCaps` counts the bytes of the varint. -/
theorem sovCaps_loop_eq : ∀ (fuel v n : Nat), v < 128 ^ (fuel + 1) →
    sovCaps.loop (fuel + 1) v n = n + (varintBytes v).length
  | 0, v, n, h => by
    have hv : v < 128 := by simpa using h
    have h0 : v >>> 7 = 0 := by
      rw [Nat.shiftRight_eq_div_pow]; exact Nat.div_eq_of_lt hv
    rw [varintBytes_small v hv]
    simp [sovCaps.loop, h0]
  | fuel + 1, v, n, h => by
    by_cases hv : v < 128
    · have h0 : v >>> 7 = 0 := by
        rw [Nat.shiftRight_eq_div_pow]; exact Nat.div_eq_of_lt hv
      rw [varintBytes_small v hv]
      simp [sovCaps.loop, h0]
    · have hne : v >>> 7 ≠ 0 := by
        rw [Nat.shiftRight_eq_div_pow]
        have : 1 ≤ v / 2 ^ 7 := (Nat.le_div_iff_mul_le (by decide)).2 (by omega)
        omega
      rw [varintBytes_big v (by omega)]
      have ih := sovCaps_loop_eq fuel (v >>> 7) (n + 1) (shiftRight_lt_pow v (fuel + 1) h)
      rw [sovCaps.loop]
      simp only [hne, if_false]
      rw [ih]
      simp
      omega

theorem sovCaps_eq (v : Nat) (h : v < 18446744073709551616) :
    sovCaps v = (varintBytes v).length := by
  unfold sovCaps
  rw [sovCaps_loop_eq 9 v 0 (by omega)]
  simp

/-! ## Sequencing -/

@[simp] theorem Res.ok_bind {α β : Type} (a : α) (f : α → Res β) : (Res.ok a >>= f) = f a := rfl

@[simp] theorem Res.err_bind {α β : Type} (e : CapsError) (f : α → Res β) :
    ((Res.err e : Res α) >>= f) = Res.err e := rfl

@[simp] theorem Res.panic_bind {α β : Type} (msg : String) (f : α → Res β) :
    ((Res.panic msg : Res α) >>= f) = Res.panic msg := rfl

@[simp] theorem Res.diverge_bind {α β : Type} (f : α → Res β) :
    ((Res.diverge : Res α) >>= f) = Res.diverge := rfl

@[simp] theorem Res.pure_eq {α : Type} (a : α) : (pure a : Res α) = Res.ok a := rfl

/-! ## Writing into a buffer -/

theorem setIndex_append (pre : List Byte) (r : Byte) (rs : List Byte) (b : Byte) :
    setIndex (pre ++ r :: rs) pre.length b = .ok (pre ++ b :: rs) := by
  unfold setIndex
  have h : pre.length < (pre ++ r :: rs).length := by simp
  rw [if_pos h]
  congr 1
  simp

theorem copyAt_append (pre rest s : List Byte) (h : s.length ≤ rest.length) :
    copyAt (pre ++ rest) pre.length s = .ok (pre ++ s ++ rest.drop s.length, s.length) := by
  unfold copyAt
  have h1 : pre.length ≤ (pre ++ rest).length := by simp
  rw [if_pos h1]
  have h2 : min ((pre ++ rest).length - pre.length) s.length = s.length := by
    simp; omega
  simp only [h2]
  congr 1
  simp [List.take_append_eq_append_take, List.drop_append_eq_append_drop]

/-- The encoder writes the bytes of the varint at the offset. -/
theorem encodeVarintCaps_loop_append : ∀ (fuel v : Nat) (pre rest : List Byte),
    v < 128 ^ (fuel + 1) → (varintBytes v).length ≤ rest.length →
    encodeVarintCaps.loop (fuel + 1) (pre ++ rest) pre.length v =
      .ok (pre ++ varintBytes v ++ rest.drop (varintBytes v).length,
        pre.length + (varintBytes v).length)
  | fuel, v, pre, [], _, hlen => by
    have := varintBytes_length_pos v
    rw [List.length_nil] at hlen
    omega
  | 0, v, pre, r :: rs, hv, _ => by
    have hv : v < 128 := by simpa using hv
    have hn : ¬ (v ≥ 1 <<< 7) := by
      have : (1 <<< 7 : Nat) = 128 := by decide
      omega
    rw [encodeVarintCaps.loop, if_neg hn, setIndex_append, varintBytes_small v hv]
    simp
  | fuel + 1, v, pre, r :: rs, hv, hlen => by
    have h128 : (1 <<< 7 : Nat) = 128 := by decide
    by_cases hsmall : v < 128
    · have hn : ¬ (v ≥ 1 <<< 7) := by omega
      rw [encodeVarintCaps.loop, if_neg hn, setIndex_append, varintBytes_small v hsmall]
      simp
    · have hp : v ≥ 1 <<< 7 := by omega
      rw [varintBytes_big v (by omega)] at hlen ⊢
      have hlen' : (varintBytes (v >>> 7)).length ≤ rs.length := by
        simpa using hlen
      have ih := encodeVarintCaps_loop_append fuel (v >>> 7)
        (pre ++ [toByte (v &&& 0x7f ||| 0x80)]) rs (shiftRight_lt_pow v (fuel + 1) hv) hlen'
      rw [encodeVarintCaps.loop, if_pos hp, setIndex_append]
      simp only [Res.ok_bind]
      have e1 : pre ++ toByte (v &&& 0x7f ||| 0x80) :: rs =
          (pre ++ [toByte (v &&& 0x7f ||| 0x80)]) ++ rs := by simp
      have e2 : pre.length + 1 = (pre ++ [toByte (v &&& 0x7f ||| 0x80)]).length := by simp
      rw [e1, e2, ih]
      simp
      omega

theorem encodeVarintCaps_append (v : Nat) (pre rest : List Byte)
    (hv : v < 18446744073709551616) (hlen : (varintBytes v).length ≤ rest.length) :
    encodeVarintCaps (pre ++ rest) pre.length v =
      .ok (pre ++ varintBytes v ++ rest.drop (varintBytes v).length,
        pre.length + (varintBytes v).length) :=
  encodeVarintCaps_loop_append 9 v pre rest (by omega) hlen

theorem uint64_lt (x : Nat) : uint64 x < 18446744073709551616 :=
  Nat.mod_lt x (by decide)

theorem stringFieldBytes_length (tag : Byte) (s : List Byte) :
    (stringFieldBytes tag s).length =
      if s.length > 0 then 1 + s.length + sovCaps (uint64 s.length) else 0 := by
  unfold stringFieldBytes
  by_cases h : s.length > 0
  · rw [if_pos h, if_pos h, sovCaps_eq _ (uint64_lt _)]
    simp
    omega
  · rw [if_neg h, if_neg h]
    rfl

theorem boolFieldBytes_length (tag : Byte) (b : Bool) :
    (boolFieldBytes tag b).length = if b then 2 else 0 := by
  cases b <;> rfl

/-- The method `Size` counts the bytes of the wire format. -/
theorem Size_eq_wireBytes_length (m : APICap) : m.Size = (wireBytes m).length := by
  have hadd : ∀ (c : Prop) [Decidable c] (n x : Nat),
      (if c then n + x else n) = n + (if c then x else 0) := by
    intro c _ n x
    by_cases hc : c <;> simp [hc]
  have hun : (if m.XXX_unrecognized ≠ [] then m.XXX_unrecognized.length else 0) =
      m.XXX_unrecognized.length := by
    by_cases hu : m.XXX_unrecognized = [] <;> simp [hu]
  have hb : ∀ b : Bool, (if b = true then 2 else 0) = (boolFieldBytes 0 b).length := by
    intro b; cases b <;> rfl
  unfold APICap.Size wireBytes
  simp only [hadd, hun, List.length_append, stringFieldBytes_length, boolFieldBytes_length]
  omega

/-- The block of a string field writes the bytes of the field at the index. -/
theorem stringField_append (tag : Byte) (s pre rest : List Byte)
    (hlen : (stringFieldBytes tag s).length ≤ rest.length) :
    MarshalTo.stringField tag s (pre ++ rest) pre.length =
      .ok ((pre ++ stringFieldBytes tag s) ++ rest.drop (stringFieldBytes tag s).length,
        (pre ++ stringFieldBytes tag s).length) := by
  unfold MarshalTo.stringField stringFieldBytes at *
  by_cases h : s.length > 0
  · simp only [if_pos h] at hlen ⊢
    cases rest with
    | nil => simp at hlen
    | cons r rs =>
      have hl : (varintBytes (uint64 s.length)).length + s.length ≤ rs.length := by
        simpa using hlen
      rw [setIndex_append]
      simp only [Res.ok_bind]
      have e1 : pre ++ tag :: rs = (pre ++ [tag]) ++ rs := by simp
      have e2 : pre.length + 1 = (pre ++ [tag]).length := by simp
      rw [e1, e2, encodeVarintCaps_append _ _ _ (uint64_lt _) (by omega)]
      simp only [Res.ok_bind]
      have e3 : (pre ++ [tag]).length + (varintBytes (uint64 s.length)).length =
          (pre ++ [tag] ++ varintBytes (uint64 s.length)).length := by simp; omega
      rw [e3, copyAt_append _ _ _ (by simp; omega)]
      simp only [Res.ok_bind, Res.pure_eq]
      congr 1
      simp [List.drop_drop]
      omega
  · simp only [if_neg h]
    simp

/-- The block of a boolean field writes the bytes of the field at the index. -/
theorem boolField_append (tag : Byte) (b : Bool) (pre rest : List Byte)
    (hlen : (boolFieldBytes tag b).length ≤ rest.length) :
    MarshalTo.boolField tag b (pre ++ rest) pre.length =
      .ok ((pre ++ boolFieldBytes tag b) ++ rest.drop (boolFieldBytes tag b).length,
        (pre ++ boolFieldBytes tag b).length) := by
  unfold MarshalTo.boolField boolFieldBytes at *
  cases b with
  | false => simp
  | true =>
    simp only [if_true] at hlen ⊢
    match rest, hlen with
    | r1 :: r2 :: rs, _ =>
      rw [setIndex_append]
      simp only [Res.ok_bind]
      have e1 : pre ++ tag :: r2 :: rs = (pre ++ [tag]) ++ r2 :: rs := by simp
      have e2 : pre.length + 1 = (pre ++ [tag]).length := by simp
      rw [e1, e2, setIndex_append]
      simp

/-- The method `MarshalTo` writes the wire format at the start of a buffer that
is long enough, and returns its length. -/
theorem MarshalTo_wireBytes (m : APICap) (buf : List Byte)
    (hlen : (wireBytes m).length ≤ buf.length) :
    m.MarshalTo buf = .ok (wireBytes m ++ buf.drop (wireBytes m).length,
      (wireBytes m).length) := by
  simp only [wireBytes, List.length_append] at hlen
  have h1 := stringField_append 0xa m.ID [] buf (by omega)
  rw [List.nil_append, List.nil_append, List.length_nil] at h1
  have h2 := boolField_append 0x10 m.Enabled (stringFieldBytes 0xa m.ID)
    (buf.drop (stringFieldBytes 0xa m.ID).length) (by rw [List.length_drop]; omega)
  have h3 := boolField_append 0x18 m.Deprecated
    (stringFieldBytes 0xa m.ID ++ boolFieldBytes 0x10 m.Enabled)
    ((buf.drop (stringFieldBytes 0xa m.ID).length).drop (boolFieldBytes 0x10 m.Enabled).length)
    (by simp only [List.length_drop]; omega)
  have h4 := stringField_append 0x22 m.DisabledReason
    (stringFieldBytes 0xa m.ID ++ boolFieldBytes 0x10 m.Enabled ++
      boolFieldBytes 0x18 m.Deprecated)
    (((buf.drop (stringFieldBytes 0xa m.ID).length).drop
      (boolFieldBytes 0x10 m.Enabled).length).drop (boolFieldBytes 0x18 m.Deprecated).length)
    (by simp only [List.length_drop]; omega)
  have h5 := stringField_append 0x2a m.DisabledReasonMsg
    (stringFieldBytes 0xa m.ID ++ boolFieldBytes 0x10 m.Enabled ++
      boolFieldBytes 0x18 m.Deprecated ++ stringFieldBytes 0x22 m.DisabledReason)
    ((((buf.drop (stringFieldBytes 0xa m.ID).length).drop
      (boolFieldBytes 0x10 m.Enabled).length).drop (boolFieldBytes 0x18 m.Deprecated).length).drop
      (stringFieldBytes 0x22 m.DisabledReason).length)
    (by simp only [List.length_drop]; omega)
  have h6 := stringField_append 0x32 m.DisabledAlternative
    (stringFieldBytes 0xa m.ID ++ boolFieldBytes 0x10 m.Enabled ++
      boolFieldBytes 0x18 m.Deprecated ++ stringFieldBytes 0x22 m.DisabledReason ++
      stringFieldBytes 0x2a m.DisabledReasonMsg)
    (((((buf.drop (stringFieldBytes 0xa m.ID).length).drop
      (boolFieldBytes 0x10 m.Enabled).length).drop (boolFieldBytes 0x18 m.Deprecated).length).drop
      (stringFieldBytes 0x22 m.DisabledReason).length).drop
      (stringFieldBytes 0x2a m.DisabledReasonMsg).length)
    (by simp only [List.length_drop]; omega)
  have h7 := copyAt_append
    (stringFieldBytes 0xa m.ID ++ boolFieldBytes 0x10 m.Enabled ++
      boolFieldBytes 0x18 m.Deprecated ++ stringFieldBytes 0x22 m.DisabledReason ++
      stringFieldBytes 0x2a m.DisabledReasonMsg ++ stringFieldBytes 0x32 m.DisabledAlternative)
    ((((((buf.drop (stringFieldBytes 0xa m.ID).length).drop
      (boolFieldBytes 0x10 m.Enabled).length).drop (boolFieldBytes 0x18 m.Deprecated).length).drop
      (stringFieldBytes 0x22 m.DisabledReason).length).drop
      (stringFieldBytes 0x2a m.DisabledReasonMsg).length).drop
      (stringFieldBytes 0x32 m.DisabledAlternative).length)
    m.XXX_unrecognized (by simp only [List.length_drop]; omega)
  unfold APICap.MarshalTo
  dsimp only
  rw [h1]
  simp only [Res.ok_bind]
  rw [h2]
  simp only [Res.ok_bind]
  rw [h3]
  simp only [Res.ok_bind]
  rw [h4]
  simp only [Res.ok_bind]
  rw [h5]
  simp only [Res.ok_bind]
  rw [h6]
  simp only [Res.ok_bind]
  by_cases hu : m.XXX_unrecognized = []
  · rw [if_neg (by simp [hu])]
    simp only [Res.pure_eq, wireBytes, hu]
    congr 1
    simp [List.drop_drop, Nat.add_assoc, Nat.add_comm, Nat.add_left_comm]
  · rw [if_pos hu, h7]
    simp only [Res.ok_bind, Res.pure_eq, wireBytes]
    congr 1
    simp [List.drop_drop, Nat.add_assoc, Nat.add_comm, Nat.add_left_comm]

/-- The method `Marshal` returns the wire format. -/
theorem Marshal_wireBytes (m : APICap) : m.Marshal = .ok (wireBytes m) := by
  unfold APICap.Marshal
  have hl : (wireBytes m).length ≤ (List.replicate m.Size (0 : Byte)).length := by
    rw [List.length_replicate, Size_eq_wireBytes_length]
  simp only []
  rw [MarshalTo_wireBytes m _ hl]
  simp only [Res.ok_bind]
  unfold slice
  have hd : List.drop (wireBytes m).length (List.replicate m.Size (0 : Byte)) = [] := by
    apply List.drop_of_length_le
    rw [List.length_replicate, Size_eq_wireBytes_length]
  rw [hd, List.append_nil]
  simp

/-! ## Reading a varint back -/

theorem index_append (pre : List Byte) (b : Byte) (rest : List Byte) :
    index (pre ++ b :: rest) pre.length = .ok b := by
  unfold index
  rw [List.getElem?_append_right (Nat.le_refl _)]
  simp

theorem toByte_val_small (v : Nat) (h : v < 128) :
    (toByte v).val = v ∧ v &&& 0x7F = v := by
  have h1 : (toByte v).val = v := by
    show v % 256 = v
    omega
  refine ⟨h1, ?_⟩
  rw [and_0x7f]
  omega

theorem toByte_val_big (v : Nat) :
    (toByte (v &&& 0x7f ||| 0x80)).val = v % 128 + 128 ∧
    (v % 128 + 128) &&& 0x7F = v % 128 := by
  have h0 : v &&& 0x7f ||| 0x80 = v % 128 + 128 := by
    rw [and_0x7f, or_0x80 _ (Nat.mod_lt v (by decide))]
  have h1 : (toByte (v &&& 0x7f ||| 0x80)).val = v % 128 + 128 := by
    show (v &&& 0x7f ||| 0x80) % 256 = v % 128 + 128
    rw [h0]
    omega
  refine ⟨h1, ?_⟩
  rw [and_0x7f]
  omega

theorem or_uint64_shiftLeft (acc x shift : Nat) (hacc : acc < 2 ^ shift)
    (hx : x * 2 ^ shift < 18446744073709551616) :
    acc ||| uint64 (x <<< shift) = acc + x * 2 ^ shift := by
  have h1 : uint64 (x <<< shift) = x <<< shift := by
    unfold uint64
    rw [Nat.shiftLeft_eq]
    exact Nat.mod_eq_of_lt hx
  rw [h1, or_shiftLeft acc x shift hacc]

/-- On the bytes of the varint of `v` the reading loop returns the accumulator
with `v` added at the shift, and the index behind the bytes. -/
theorem decodeVarint_loop_varintBytes : ∀ (fuel v : Nat) (pre post : List Byte)
    (shift acc : Nat), v < 128 ^ (fuel + 1) → shift < 64 → acc < 2 ^ shift →
    v * 2 ^ shift < 18446744073709551616 →
    decodeVarint.loop (pre ++ varintBytes v ++ post) (fuel + 1) pre.length shift acc =
      .ok (acc + v * 2 ^ shift, pre.length + (varintBytes v).length) := by
  intro fuel
  induction fuel with
  | zero =>
    intro v pre post shift acc hv hs hacc hmul
    have hv : v < 128 := by simpa using hv
    obtain ⟨b1, b2⟩ := toByte_val_small v hv
    rw [varintBytes_small v hv, decodeVarint.loop]
    have hlt : ¬ pre.length ≥ (pre ++ [toByte v] ++ post).length := by simp
    rw [if_neg (by omega), if_neg hlt]
    rw [List.append_assoc, List.singleton_append, index_append]
    simp only [Res.ok_bind, b1, b2, hv, if_true, Res.pure_eq, List.length_singleton]
    rw [or_uint64_shiftLeft acc v shift hacc hmul]
  | succ fuel ih =>
    intro v pre post shift acc hv hs hacc hmul
    by_cases hsmall : v < 128
    · obtain ⟨b1, b2⟩ := toByte_val_small v hsmall
      rw [varintBytes_small v hsmall, decodeVarint.loop]
      have hlt : ¬ pre.length ≥ (pre ++ [toByte v] ++ post).length := by simp
      rw [if_neg (by omega), if_neg hlt]
      rw [List.append_assoc, List.singleton_append, index_append]
      simp only [Res.ok_bind, b1, b2, hsmall, if_true, Res.pure_eq, List.length_singleton]
      rw [or_uint64_shiftLeft acc v shift hacc hmul]
    · obtain ⟨b1, b2⟩ := toByte_val_big v
      have hP : 0 < 2 ^ shift := Nat.two_pow_pos shift
      have hmod : v % 128 * 2 ^ shift ≤ v * 2 ^ shift :=
        Nat.mul_le_mul_right _ (Nat.mod_le v 128)
      have hmod2 : v % 128 * 2 ^ shift ≤ 127 * 2 ^ shift :=
        Nat.mul_le_mul_right _ (by have := Nat.mod_lt v (show 0 < 128 by decide); omega)
      have hpow : 2 ^ (shift + 7) = 128 * 2 ^ shift := by
        rw [Nat.pow_add]; omega
      have hbig : 128 * 2 ^ shift ≤ v * 2 ^ shift := Nat.mul_le_mul_right _ (by omega)
      have hs7 : shift + 7 < 64 := by
        have h1 : 2 ^ (shift + 7) < 2 ^ 64 := by
          rw [hpow]
          have : (2 : Nat) ^ 64 = 18446744073709551616 := by decide
          omega
        exact (Nat.pow_lt_pow_iff_right (by decide)).1 h1
      have hdiv : v >>> 7 = v / 128 := by
        rw [Nat.shiftRight_eq_div_pow]
      have hq : v / 128 * (128 * 2 ^ shift) ≤ v * 2 ^ shift := by
        rw [← Nat.mul_assoc]
        exact Nat.mul_le_mul_right _ (Nat.div_mul_le_self v 128)
      have hsum : acc + v % 128 * 2 ^ shift + v / 128 * (128 * 2 ^ shift) =
          acc + v * 2 ^ shift := by
        have hv' : v = 128 * (v / 128) + v % 128 := (Nat.div_add_mod v 128).symm
        generalize v / 128 = q at hv' ⊢
        generalize v % 128 = r at hv' ⊢
        subst hv'
        ring
      rw [varintBytes_big v (by omega), decodeVarint.loop]
      have hlt : ¬ pre.length ≥
          (pre ++ toByte (v &&& 0x7f ||| 0x80) :: varintBytes (v >>> 7) ++ post).length := by
        simp
      rw [if_neg (by omega), if_neg hlt]
      rw [List.append_assoc, List.cons_append, index_append]
      have hnot : ¬ (v % 128 + 128 < 0x80) := by omega
      simp only [Res.ok_bind, b1, b2, hnot, if_false]
      rw [or_uint64_shiftLeft acc (v % 128) shift hacc (by omega)]
      have e1 : pre ++ toByte (v &&& 0x7f ||| 0x80) :: (varintBytes (v >>> 7) ++ post) =
          (pre ++ [toByte (v &&& 0x7f ||| 0x80)]) ++ varintBytes (v >>> 7) ++ post := by simp
      have e2 : pre.length + 1 = (pre ++ [toByte (v &&& 0x7f ||| 0x80)]).length := by simp
      rw [e1, e2, ih (v >>> 7) _ post (shift + 7) _ (shiftRight_lt_pow v (fuel + 1) hv) hs7
        (by rw [hpow]; omega) (by rw [hpow, hdiv]; omega)]
      rw [hpow, hdiv, hsum]
      simp
      omega

/-- A varint read on the bytes of the varint of a `uint64`. -/
theorem decodeVarint_varintBytes (v : Nat) (pre post : List Byte)
    (hv : v < 18446744073709551616) :
    decodeVarint (pre ++ varintBytes v ++ post) pre.length =
      .ok (v, pre.length + (varintBytes v).length) := by
  unfold decodeVarint
  rw [decodeVarint_loop_varintBytes 10 v pre post 0 0 (by omega) (by decide) (by decide)
    (by omega)]
  simp

/-- A varint read on a single byte below 0x80. -/
theorem decodeVarint_byte (b : Byte) (pre post : List Byte) (hb : b.val < 128) :
    decodeVarint (pre ++ b :: post) pre.length = .ok (b.val, pre.length + 1) := by
  have hvb : varintBytes b.val = [b] := by
    rw [varintBytes_small _ hb]
    congr 1
    apply Fin.ext
    show b.val % 256 = b.val
    omega
  have h := decodeVarint_varintBytes b.val pre post (by omega)
  rw [hvb] at h
  simpa using h

/-! ## Reading the fields back -/

theorem int64_of_small (x : Int) (h0 : 0 ≤ x) (h1 : x < 9223372036854775808) : int64 x = x := by
  unfold int64
  omega

theorem slice_append (a s post : List Byte) :
    slice (a ++ s ++ post) a.length (a.length + s.length) = .ok s := by
  unfold slice
  have h : a.length ≤ a.length + s.length ∧ a.length + s.length ≤ (a ++ s ++ post).length := by
    simp
  rw [if_pos h]
  congr 1
  simp

/-- The body of a string case reads back a string written as the varint of its
length followed by its bytes. -/
theorem Unmarshal_stringField_bytes (s pre post : List Byte)
    (hlen : (pre ++ varintBytes (uint64 s.length) ++ (s ++ post)).length <
      9223372036854775808) :
    Unmarshal.stringField (pre ++ varintBytes (uint64 s.length) ++ (s ++ post)) pre.length =
      .ok (s, (pre ++ varintBytes (uint64 s.length) ++ s).length) := by
  have hl := hlen
  simp only [List.length_append] at hl
  have hu : uint64 s.length = s.length := by
    unfold uint64
    omega
  unfold Unmarshal.stringField
  rw [decodeVarint_varintBytes _ _ _ (uint64_lt _), Res.ok_bind]
  dsimp only
  rw [hu] at hl ⊢
  have h1 : int64 (s.length : Int) = s.length :=
    int64_of_small (s.length : Int) (by omega) (by omega)
  have h2 : int64 (((pre.length + (varintBytes s.length).length : Nat) : Int) + s.length) =
      ((pre.length + (varintBytes s.length).length + s.length : Nat) : Int) := by
    rw [int64_of_small (((pre.length + (varintBytes s.length).length : Nat) : Int) + s.length)
      (by omega) (by omega)]
    omega
  rw [h1, h2]
  have c1 : ¬ ((s.length : Int) < 0) := by omega
  have c2 : ¬ (((pre.length + (varintBytes s.length).length + s.length : Nat) : Int) < 0) := by
    omega
  have c3 : ¬ (((pre.length + (varintBytes s.length).length + s.length : Nat) : Int) >
      ((pre ++ varintBytes s.length ++ (s ++ post)).length : Nat)) := by
    simp only [List.length_append]
    omega
  rw [if_neg c1, if_neg c2, if_neg c3, Int.toNat_ofNat]
  have e1 : pre ++ varintBytes s.length ++ (s ++ post) =
      (pre ++ varintBytes s.length) ++ s ++ post := by simp
  have e2 : pre.length + (varintBytes s.length).length = (pre ++ varintBytes s.length).length := by
    simp
  rw [e1, e2, slice_append]
  simp
  omega

/-- The body of a boolean case reads back the byte 1 as true. -/
theorem Unmarshal_boolField_one (pre post : List Byte) :
    Unmarshal.boolField (pre ++ (1 : Byte) :: post) pre.length = .ok (true, pre.length + 1) := by
  unfold Unmarshal.boolField
  rw [decodeVarint_byte 1 pre post (by decide)]
  simp

/-! ## One field per iteration -/

/-- An iteration of the main loop on the bytes of a non-empty ID. -/
theorem step_ID (s pre post : List Byte) (m : APICap) (hs : s.length > 0)
    (hlen : (pre ++ stringFieldBytes 0xa s ++ post).length < 9223372036854775808) :
    Unmarshal.step (pre ++ stringFieldBytes 0xa s ++ post) pre.length m =
      .ok ((pre ++ stringFieldBytes 0xa s).length, { m with ID := s }) := by
  unfold stringFieldBytes at hlen ⊢
  rw [if_pos hs] at hlen ⊢
  have e1 : pre ++ (0xa : Byte) :: (varintBytes (uint64 s.length) ++ s) ++ post =
      pre ++ (0xa : Byte) :: (varintBytes (uint64 s.length) ++ s ++ post) := by simp
  have e2 : pre ++ (0xa : Byte) :: (varintBytes (uint64 s.length) ++ s ++ post) =
      (pre ++ [(0xa : Byte)]) ++ varintBytes (uint64 s.length) ++ (s ++ post) := by simp
  have hd := decodeVarint_byte 0xa pre (varintBytes (uint64 s.length) ++ s ++ post) (by decide)
  have hf := Unmarshal_stringField_bytes s (pre ++ [(0xa : Byte)]) post
    (by rw [← e2, ← e1]; exact hlen)
  rw [← e2] at hf
  have e3 : (pre ++ [(0xa : Byte)]).length = pre.length + 1 := by simp
  rw [e3] at hf
  unfold Unmarshal.step
  rw [e1, hd, Res.ok_bind]
  dsimp only
  have hw : ((0xa : Byte).val &&& 0x7) = 2 := by decide
  have hn : int32 (((0xa : Byte).val >>> 3 : Nat) : Int) = 1 := by decide
  rw [hw, hn, if_neg (by decide), if_neg (by decide), if_pos rfl, if_neg (by decide), hf,
    Res.ok_bind]
  simp

/-- An iteration of the main loop on the bytes of a true Enabled. -/
theorem step_Enabled (pre post : List Byte) (m : APICap) :
    Unmarshal.step (pre ++ boolFieldBytes 0x10 true ++ post) pre.length m =
      .ok ((pre ++ boolFieldBytes 0x10 true).length, { m with Enabled := true }) := by
  have e1 : pre ++ boolFieldBytes 0x10 true ++ post =
      pre ++ (0x10 : Byte) :: ((1 : Byte) :: post) := by simp [boolFieldBytes]
  have e2 : pre ++ (0x10 : Byte) :: ((1 : Byte) :: post) =
      (pre ++ [(0x10 : Byte)]) ++ (1 : Byte) :: post := by simp
  have hd := decodeVarint_byte 0x10 pre ((1 : Byte) :: post) (by decide)
  have hf := Unmarshal_boolField_one (pre ++ [(0x10 : Byte)]) post
  rw [← e2] at hf
  have e3 : (pre ++ [(0x10 : Byte)]).length = pre.length + 1 := by simp
  rw [e3] at hf
  unfold Unmarshal.step
  rw [e1, hd, Res.ok_bind]
  dsimp only
  have hw : ((0x10 : Byte).val &&& 0x7) = 0 := by decide
  have hn : int32 (((0x10 : Byte).val >>> 3 : Nat) : Int) = 2 := by decide
  rw [hw, hn, if_neg (by decide), if_neg (by decide), if_neg (by decide), if_pos rfl, if_neg (by decide), hf,
    Res.ok_bind]
  simp [boolFieldBytes]

/-- An iteration of the main loop on the bytes of a true Deprecated. -/
theorem step_Deprecated (pre post : List Byte) (m : APICap) :
    Unmarshal.step (pre ++ boolFieldBytes 0x18 true ++ post) pre.length m =
      .ok ((pre ++ boolFieldBytes 0x18 true).length, { m with Deprecated := true }) := by
  have e1 : pre ++ boolFieldBytes 0x18 true ++ post =
      pre ++ (0x18 : Byte) :: ((1 : Byte) :: post) := by simp [boolFieldBytes]
  have e2 : pre ++ (0x18 : Byte) :: ((1 : Byte) :: post) =
      (pre ++ [(0x18 : Byte)]) ++ (1 : Byte) :: post := by simp
  have hd := decodeVarint_byte 0x18 pre ((1 : Byte) :: post) (by decide)
  have hf := Unmarshal_boolField_one (pre ++ [(0x18 : Byte)]) post
  rw [← e2] at hf
  have e3 : (pre ++ [(0x18 : Byte)]).length = pre.length + 1 := by simp
  rw [e3] at hf
  unfold Unmarshal.step
  rw [e1, hd, Res.ok_bind]
  dsimp only
  have hw : ((0x18 : Byte).val &&& 0x7) = 0 := by decide
  have hn : int32 (((0x18 : Byte).val >>> 3 : Nat) : Int) = 3 := by decide
  rw [hw, hn, if_neg (by decide), if_neg (by decide), if_neg (by decide), if_neg (by decide), if_pos rfl, if_neg (by decide), hf,
    Res.ok_bind]
  simp [boolFieldBytes]

/-- An iteration of the main loop on the bytes of a non-empty DisabledReason. -/
theorem step_DisabledReason (s pre post : List Byte) (m : APICap) (hs : s.length > 0)
    (hlen : (pre ++ stringFieldBytes 0x22 s ++ post).length < 9223372036854775808) :
    Unmarshal.step (pre ++ stringFieldBytes 0x22 s ++ post) pre.length m =
      .ok ((pre ++ stringFieldBytes 0x22 s).length, { m with DisabledReason := s }) := by
  unfold stringFieldBytes at hlen ⊢
  rw [if_pos hs] at hlen ⊢
  have e1 : pre ++ (0x22 : Byte) :: (varintBytes (uint64 s.length) ++ s) ++ post =
      pre ++ (0x22 : Byte) :: (varintBytes (uint64 s.length) ++ s ++ post) := by simp
  have e2 : pre ++ (0x22 : Byte) :: (varintBytes (uint64 s.length) ++ s ++ post) =
      (pre ++ [(0x22 : Byte)]) ++ varintBytes (uint64 s.length) ++ (s ++ post) := by simp
  have hd := decodeVarint_byte 0x22 pre (varintBytes (uint64 s.length) ++ s ++ post) (by decide)
  have hf := Unmarshal_stringField_bytes s (pre ++ [(0x22 : Byte)]) post
    (by rw [← e2, ← e1]; exact hlen)
  rw [← e2] at hf
  have e3 : (pre ++ [(0x22 : Byte)]).length = pre.length + 1 := by simp
  rw [e3] at hf
  unfold Unmarshal.step
  rw [e1, hd, Res.ok_bind]
  dsimp only
  have hw : ((0x22 : Byte).val &&& 0x7) = 2 := by decide
  have hn : int32 (((0x22 : Byte).val >>> 3 : Nat) : Int) = 4 := by decide
  rw [hw, hn, if_neg (by decide), if_neg (by decide), if_neg (by decide), if_neg (by decide), if_neg (by decide), if_pos rfl, if_neg (by decide), hf,
    Res.ok_bind]
  simp

/-- An iteration of the main loop on the bytes of a non-empty DisabledReasonMsg. -/
theorem step_DisabledReasonMsg (s pre post : List Byte) (m : APICap) (hs : s.length > 0)
    (hlen : (pre ++ stringFieldBytes 0x2a s ++ post).length < 9223372036854775808) :
    Unmarshal.step (pre ++ stringFieldBytes 0x2a s ++ post) pre.length m =
      .ok ((pre ++ stringFieldBytes 0x2a s).length, { m with DisabledReasonMsg := s }) := by
  unfold stringFieldBytes at hlen ⊢
  rw [if_pos hs] at hlen ⊢
  have e1 : pre ++ (0x2a : Byte) :: (varintBytes (uint64 s.length) ++ s) ++ post =
      pre ++ (0x2a : Byte) :: (varintBytes (uint64 s.length) ++ s ++ post) := by simp
  have e2 : pre ++ (0x2a : Byte) :: (varintBytes (uint64 s.length) ++ s ++ post) =
      (pre ++ [(0x2a : Byte)]) ++ varintBytes (uint64 s.length) ++ (s ++ post) := by simp
  have hd := decodeVarint_byte 0x2a pre (varintBytes (uint64 s.length) ++ s ++ post) (by decide)
  have hf := Unmarshal_stringField_bytes s (pre ++ [(0x2a : Byte)]) post
    (by rw [← e2, ← e1]; exact hlen)
  rw [← e2] at hf
  have e3 : (pre ++ [(0x2a : Byte)]).length = pre.length + 1 := by simp
  rw [e3] at hf
  unfold Unmarshal.step
  rw [e1, hd, Res.ok_bind]
  dsimp only
  have hw : ((0x2a : Byte).val &&& 0x7) = 2 := by decide
  have hn : int32 (((0x2a : Byte).val >>> 3 : Nat) : Int) = 5 := by decide
  rw [hw, hn, if_neg (by decide), if_neg (by decide), if_neg (by decide), if_neg (by decide), if_neg (by decide), if_neg (by decide), if_pos rfl, if_neg (by decide), hf,
    Res.ok_bind]
  simp

/-- An iteration of the main loop on the bytes of a non-empty DisabledAlternative. -/
theorem step_DisabledAlternative (s pre post : List Byte) (m : APICap) (hs : s.length > 0)
    (hlen : (pre ++ stringFieldBytes 0x32 s ++ post).length < 9223372036854775808) :
    Unmarshal.step (pre ++ stringFieldBytes 0x32 s ++ post) pre.length m =
      .ok ((pre ++ stringFieldBytes 0x32 s).length, { m with DisabledAlternative := s }) := by
  unfold stringFieldBytes at hlen ⊢
  rw [if_pos hs] at hlen ⊢
  have e1 : pre ++ (0x32 : Byte) :: (varintBytes (uint64 s.length) ++ s) ++ post =
      pre ++ (0x32 : Byte) :: (varintBytes (uint64 s.length) ++ s ++ post) := by simp
  have e2 : pre ++ (0x32 : Byte) :: (varintBytes (uint64 s.length) ++ s ++ post) =
      (pre ++ [(0x32 : Byte)]) ++ varintBytes (uint64 s.length) ++ (s ++ post) := by simp
  have hd := decodeVarint_byte 0x32 pre (varintBytes (uint64 s.length) ++ s ++ post) (by decide)
  have hf := Unmarshal_stringField_bytes s (pre ++ [(0x32 : Byte)]) post
    (by rw [← e2, ← e1]; exact hlen)
  rw [← e2] at hf
  have e3 : (pre ++ [(0x32 : Byte)]).length = pre.length + 1 := by simp
  rw [e3] at hf
  unfold Unmarshal.step
  rw [e1, hd, Res.ok_bind]
  dsimp only
  have hw : ((0x32 : Byte).val &&& 0x7) = 2 := by decide
  have hn : int32 (((0x32 : Byte).val >>> 3 : Nat) : Int) = 6 := by decide
  rw [hw, hn, if_neg (by decide), if_neg (by decide), if_neg (by decide), if_neg (by decide), if_neg (by decide), if_neg (by decide), if_neg (by decide), if_pos rfl, if_neg (by decide), hf,
    Res.ok_bind]
  simp

/-! ## The main loop, field after field -/

/-- At the end of the input the main loop returns the message. -/
theorem loop_end (d : List Byte) (m : APICap) (f : Nat) (hf : f ≥ 1) :
    Unmarshal.loop d f d.length m = .ok m := by
  obtain ⟨f0, rfl⟩ : ∃ f0, f = f0 + 1 := ⟨f - 1, by omega⟩
  rw [Unmarshal.loop, if_neg (Nat.lt_irrefl _), if_neg (Nat.lt_irrefl _)]
  rfl

/-- An iteration that reads a field hands over to the rest of the loop. -/
theorem loop_step (d : List Byte) (i : Nat) (m : APICap) (j : Nat) (n R : APICap)
    (hstep : Unmarshal.step d i m = .ok (j, n)) (hij : i < j) (hj : j ≤ d.length)
    (hdone : ∀ f, f ≥ d.length - j + 1 → Unmarshal.loop d f j n = .ok R) :
    ∀ f, f ≥ d.length - i + 1 → Unmarshal.loop d f i m = .ok R := by
  intro f hf
  obtain ⟨f0, rfl⟩ : ∃ f0, f = f0 + 1 := ⟨f - 1, by omega⟩
  rw [Unmarshal.loop, if_pos (by omega), hstep, Res.ok_bind]
  exact hdone f0 (by omega)

/-- The main loop gets past the bytes of the field ID. -/
theorem loop_past_ID (d pre post s : List Byte) (m R : APICap)
    (hd : d = pre ++ stringFieldBytes 0xa s ++ post) (hlen : d.length < 9223372036854775808)
    (hdef : m.ID = [])
    (hdone : ∀ f, f ≥ d.length - (pre ++ stringFieldBytes 0xa s).length + 1 →
      Unmarshal.loop d f (pre ++ stringFieldBytes 0xa s).length { m with ID := s } =
        .ok R) :
    ∀ f, f ≥ d.length - pre.length + 1 → Unmarshal.loop d f pre.length m = .ok R := by
  by_cases hs : s.length > 0
  · have hst := step_ID s pre post m hs (by rw [← hd]; exact hlen)
    rw [← hd] at hst
    have hpos : 0 < (stringFieldBytes 0xa s).length := by
      unfold stringFieldBytes
      rw [if_pos hs]
      simp
    refine loop_step d pre.length m _ _ R hst ?_ ?_ hdone
    · rw [List.length_append]; omega
    · rw [hd]; simp
  · have hs0 : s = [] := List.length_eq_zero.1 (by omega)
    have hb : stringFieldBytes 0xa s = [] := by
      unfold stringFieldBytes
      rw [if_neg hs]
    have hm : ({ m with ID := s } : APICap) = m := by
      rw [hs0, ← hdef]
    rw [hb, List.append_nil, hm] at hdone
    exact hdone

/-- The main loop gets past the bytes of the field Enabled. -/
theorem loop_past_Enabled (d pre post : List Byte) (b : Bool) (m R : APICap)
    (hd : d = pre ++ boolFieldBytes 0x10 b ++ post) (hdef : m.Enabled = false)
    (hdone : ∀ f, f ≥ d.length - (pre ++ boolFieldBytes 0x10 b).length + 1 →
      Unmarshal.loop d f (pre ++ boolFieldBytes 0x10 b).length { m with Enabled := b } =
        .ok R) :
    ∀ f, f ≥ d.length - pre.length + 1 → Unmarshal.loop d f pre.length m = .ok R := by
  cases b with
  | true =>
    have hst := step_Enabled pre post m
    rw [← hd] at hst
    refine loop_step d pre.length m _ _ R hst ?_ ?_ hdone
    · simp [boolFieldBytes]
    · rw [hd]; simp
  | false =>
    have hb : boolFieldBytes 0x10 false = [] := rfl
    have hm : ({ m with Enabled := false } : APICap) = m := by
      rw [← hdef]
    rw [hb, List.append_nil, hm] at hdone
    exact hdone

/-- The main loop gets past the bytes of the field Deprecated. -/
theorem loop_past_Deprecated (d pre post : List Byte) (b : Bool) (m R : APICap)
    (hd : d = pre ++ boolFieldBytes 0x18 b ++ post) (hdef : m.Deprecated = false)
    (hdone : ∀ f, f ≥ d.length - (pre ++ boolFieldBytes 0x18 b).length + 1 →
      Unmarshal.loop d f (pre ++ boolFieldBytes 0x18 b).length { m with Deprecated := b } =
        .ok R) :
    ∀ f, f ≥ d.length - pre.length + 1 → Unmarshal.loop d f pre.length m = .ok R := by
  cases b with
  | true =>
    have hst := step_Deprecated pre post m
    rw [← hd] at hst
    refine loop_step d pre.length m _ _ R hst ?_ ?_ hdone
    · simp [boolFieldBytes]
    · rw [hd]; simp
  | false =>
    have hb : boolFieldBytes 0x18 false = [] := rfl
    have hm : ({ m with Deprecated := false } : APICap) = m := by
      rw [← hdef]
    rw [hb, List.append_nil, hm] at hdone
    exact hdone

/-- The main loop gets past the bytes of the field DisabledReason. -/
theorem loop_past_DisabledReason (d pre post s : List Byte) (m R : APICap)
    (hd : d = pre ++ stringFieldBytes 0x22 s ++ post) (hlen : d.length < 9223372036854775808)
    (hdef : m.DisabledReason = [])
    (hdone : ∀ f, f ≥ d.length - (pre ++ stringFieldBytes 0x22 s).length + 1 →
      Unmarshal.loop d f (pre ++ stringFieldBytes 0x22 s).length { m with DisabledReason := s } =
        .ok R) :
    ∀ f, f ≥ d.length - pre.length + 1 → Unmarshal.loop d f pre.length m = .ok R := by
  by_cases hs : s.length > 0
  · have hst := step_DisabledReason s pre post m hs (by rw [← hd]; exact hlen)
    rw [← hd] at hst
    have hpos : 0 < (stringFieldBytes 0x22 s).length := by
      unfold stringFieldBytes
      rw [if_pos hs]
      simp
    refine loop_step d pre.length m _ _ R hst ?_ ?_ hdone
    · rw [List.length_append]; omega
    · rw [hd]; simp
  · have hs0 : s = [] := List.length_eq_zero.1 (by omega)
    have hb : stringFieldBytes 0x22 s = [] := by
      unfold stringFieldBytes
      rw [if_neg hs]
    have hm : ({ m with DisabledReason := s } : APICap) = m := by
      rw [hs0, ← hdef]
    rw [hb, List.append_nil, hm] at hdone
    exact hdone

/-- The main loop gets past the bytes of the field DisabledReasonMsg. -/
theorem loop_past_DisabledReasonMsg (d pre post s : List Byte) (m R : APICap)
    (hd : d = pre ++ stringFieldBytes 0x2a s ++ post) (hlen : d.length < 9223372036854775808)
    (hdef : m.DisabledReasonMsg = [])
    (hdone : ∀ f, f ≥ d.length - (pre ++ stringFieldBytes 0x2a s).length + 1 →
      Unmarshal.loop d f (pre ++ stringFieldBytes 0x2a s).length { m with DisabledReasonMsg := s } =
        .ok R) :
    ∀ f, f ≥ d.length - pre.length + 1 → Unmarshal.loop d f pre.length m = .ok R := by
  by_cases hs : s.length > 0
  · have hst := step_DisabledReasonMsg s pre post m hs (by rw [← hd]; exact hlen)
    rw [← hd] at hst
    have hpos : 0 < (stringFieldBytes 0x2a s).length := by
      unfold stringFieldBytes
      rw [if_pos hs]
      simp
    refine loop_step d pre.length m _ _ R hst ?_ ?_ hdone
    · rw [List.length_append]; omega
    · rw [hd]; simp
  · have hs0 : s = [] := List.length_eq_zero.1 (by omega)
    have hb : stringFieldBytes 0x2a s = [] := by
      unfold stringFieldBytes
      rw [if_neg hs]
    have hm : ({ m with DisabledReasonMsg := s } : APICap) = m := by
      rw [hs0, ← hdef]
    rw [hb, List.append_nil, hm] at hdone
    exact hdone

/-- The main loop gets past the bytes of the field DisabledAlternative. -/
theorem loop_past_DisabledAlternative (d pre post s : List Byte) (m R : APICap)
    (hd : d = pre ++ stringFieldBytes 0x32 s ++ post) (hlen : d.length < 9223372036854775808)
    (hdef : m.DisabledAlternative = [])
    (hdone : ∀ f, f ≥ d.length - (pre ++ stringFieldBytes 0x32 s).length + 1 →
      Unmarshal.loop d f (pre ++ stringFieldBytes 0x32 s).length { m with DisabledAlternative := s } =
        .ok R) :
    ∀ f, f ≥ d.length - pre.length + 1 → Unmarshal.loop d f pre.length m = .ok R := by
  by_cases hs : s.length > 0
  · have hst := step_DisabledAlternative s pre post m hs (by rw [← hd]; exact hlen)
    rw [← hd] at hst
    have hpos : 0 < (stringFieldBytes 0x32 s).length := by
      unfold stringFieldBytes
      rw [if_pos hs]
      simp
    refine loop_step d pre.length m _ _ R hst ?_ ?_ hdone
    · rw [List.length_append]; omega
    · rw [hd]; simp
  · have hs0 : s = [] := List.length_eq_zero.1 (by omega)
    have hb : stringFieldBytes 0x32 s = [] := by
      unfold stringFieldBytes
      rw [if_neg hs]
    have hm : ({ m with DisabledAlternative := s } : APICap) = m := by
      rw [hs0, ← hdef]
    rw [hb, List.append_nil, hm] at hdone
    exact hdone

/-- Unmarshalling the wire format of a message without unrecognised bytes into
the zero message gives the message back. -/
theorem Unmarshal_wireBytes (m : APICap) (hun : m.XXX_unrecognized = [])
    (hlen : (wireBytes m).length < 9223372036854775808) :
    APICap.Unmarshal {} (wireBytes m) =
      .ok { ID := m.ID, Enabled := m.Enabled, Deprecated := m.Deprecated,
            DisabledReason := m.DisabledReason, DisabledReasonMsg := m.DisabledReasonMsg,
            DisabledAlternative := m.DisabledAlternative } := by
  have hw : wireBytes m =
      stringFieldBytes 0xa m.ID ++ boolFieldBytes 0x10 m.Enabled ++
        boolFieldBytes 0x18 m.Deprecated ++ stringFieldBytes 0x22 m.DisabledReason ++
        stringFieldBytes 0x2a m.DisabledReasonMsg ++
        stringFieldBytes 0x32 m.DisabledAlternative := by
    simp [wireBytes, hun]
  generalize hd : wireBytes m = d at hlen hw
  have h6 : ∀ f, f ≥ d.length - d.length + 1 → Unmarshal.loop d f d.length
      { ID := m.ID, Enabled := m.Enabled, Deprecated := m.Deprecated,
        DisabledReason := m.DisabledReason, DisabledReasonMsg := m.DisabledReasonMsg,
        DisabledAlternative := m.DisabledAlternative } = .ok
      { ID := m.ID, Enabled := m.Enabled, Deprecated := m.Deprecated,
        DisabledReason := m.DisabledReason, DisabledReasonMsg := m.DisabledReasonMsg,
        DisabledAlternative := m.DisabledAlternative } := by
    intro f hf
    exact loop_end d _ f (by omega)
  have h5 := loop_past_DisabledAlternative d
    (stringFieldBytes 0xa m.ID ++ boolFieldBytes 0x10 m.Enabled ++
      boolFieldBytes 0x18 m.Deprecated ++ stringFieldBytes 0x22 m.DisabledReason ++
      stringFieldBytes 0x2a m.DisabledReasonMsg) [] m.DisabledAlternative
    { ID := m.ID, Enabled := m.Enabled, Deprecated := m.Deprecated,
      DisabledReason := m.DisabledReason, DisabledReasonMsg := m.DisabledReasonMsg } _
    (by rw [hw]; simp) hlen rfl (by rw [← hw]; exact h6)
  have h4 := loop_past_DisabledReasonMsg d
    (stringFieldBytes 0xa m.ID ++ boolFieldBytes 0x10 m.Enabled ++
      boolFieldBytes 0x18 m.Deprecated ++ stringFieldBytes 0x22 m.DisabledReason)
    (stringFieldBytes 0x32 m.DisabledAlternative) m.DisabledReasonMsg
    { ID := m.ID, Enabled := m.Enabled, Deprecated := m.Deprecated,
      DisabledReason := m.DisabledReason } _
    (by rw [hw]) hlen rfl h5
  have h3 := loop_past_DisabledReason d
    (stringFieldBytes 0xa m.ID ++ boolFieldBytes 0x10 m.Enabled ++
      boolFieldBytes 0x18 m.Deprecated)
    (stringFieldBytes 0x2a m.DisabledReasonMsg ++ stringFieldBytes 0x32 m.DisabledAlternative)
    m.DisabledReason
    { ID := m.ID, Enabled := m.Enabled, Deprecated := m.Deprecated } _
    (by rw [hw]; simp) hlen rfl h4
  have h2 := loop_past_Deprecated d
    (stringFieldBytes 0xa m.ID ++ boolFieldBytes 0x10 m.Enabled)
    (stringFieldBytes 0x22 m.DisabledReason ++ (stringFieldBytes 0x2a m.DisabledReasonMsg ++
      stringFieldBytes 0x32 m.DisabledAlternative))
    m.Deprecated { ID := m.ID, Enabled := m.Enabled } _
    (by rw [hw]; simp) rfl h3
  have h1 := loop_past_Enabled d (stringFieldBytes 0xa m.ID)
    (boolFieldBytes 0x18 m.Deprecated ++ (stringFieldBytes 0x22 m.DisabledReason ++
      (stringFieldBytes 0x2a m.DisabledReasonMsg ++
        stringFieldBytes 0x32 m.DisabledAlternative)))
    m.Enabled { ID := m.ID } _
    (by rw [hw]; simp) rfl h2
  have h0 := loop_past_ID d []
    (boolFieldBytes 0x10 m.Enabled ++ (boolFieldBytes 0x18 m.Deprecated ++
      (stringFieldBytes 0x22 m.DisabledReason ++ (stringFieldBytes 0x2a m.DisabledReasonMsg ++
        stringFieldBytes 0x32 m.DisabledAlternative))))
    m.ID {} _
    (by rw [hw]; simp) hlen rfl h1
  unfold APICap.Unmarshal
  exact h0 (d.length + 1) (by simp)

/-! ## Safety of the reading loops on arbitrary input -/

theorem index_of_lt (d : List Byte) (i : Nat) (h : i < d.length) :
    ∃ b, index d i = .ok b := by
  unfold index
  rw [List.getElem?_eq_getElem h]
  exact ⟨_, rfl⟩

theorem uint64_or_lt (acc x : Nat) (h : acc < 18446744073709551616) :
    acc ||| uint64 x < 18446744073709551616 := by
  have h1 : acc < 2 ^ 64 := by
    have : (2 : Nat) ^ 64 = 18446744073709551616 := by decide
    omega
  have h2 : uint64 x < 2 ^ 64 := by
    have : (2 : Nat) ^ 64 = 18446744073709551616 := by decide
    have := uint64_lt x
    omega
  have h3 := Nat.or_lt_two_pow h1 h2
  have : (2 : Nat) ^ 64 = 18446744073709551616 := by decide
  omega

/-- On any input the reading loop returns an error, or 64 bits and an index
that moved forward and stays within the input. -/
theorem decodeVarint_loop_cases (d : List Byte) : ∀ (fuel i shift acc : Nat),
    1 ≤ fuel → 71 ≤ shift + 7 * fuel → acc < 18446744073709551616 →
    (∃ e, decodeVarint.loop d fuel i shift acc = .err e) ∨
    (∃ v j, decodeVarint.loop d fuel i shift acc = .ok (v, j) ∧ i < j ∧ j ≤ d.length ∧
      v < 18446744073709551616)
  | 0, _, _, _, h, _, _ => absurd h (by decide)
  | fuel + 1, i, shift, acc, _, hf, hacc => by
    rw [decodeVarint.loop]
    by_cases hs : shift ≥ 64
    · rw [if_pos hs]
      exact Or.inl ⟨_, rfl⟩
    · rw [if_neg hs]
      by_cases hi : i ≥ d.length
      · rw [if_pos hi]
        exact Or.inl ⟨_, rfl⟩
      · rw [if_neg hi]
        obtain ⟨b, hb⟩ := index_of_lt d i (by omega)
        rw [hb, Res.ok_bind]
        dsimp only
        by_cases hlast : b.val < 0x80
        · rw [if_pos hlast]
          exact Or.inr ⟨_, _, rfl, by omega, by omega, uint64_or_lt _ _ hacc⟩
        · rw [if_neg hlast]
          rcases decodeVarint_loop_cases d fuel (i + 1) (shift + 7)
              (acc ||| uint64 ((b.val &&& 0x7F) <<< shift)) (by omega) (by omega)
              (uint64_or_lt _ _ hacc) with ⟨e, he⟩ | ⟨v, j, hv, h1, h2, h3⟩
          · exact Or.inl ⟨e, he⟩
          · exact Or.inr ⟨v, j, hv, by omega, h2, h3⟩

theorem decodeVarint_cases (d : List Byte) (i : Nat) :
    (∃ e, decodeVarint d i = .err e) ∨
    (∃ v j, decodeVarint d i = .ok (v, j) ∧ i < j ∧ j ≤ d.length ∧
      v < 18446744073709551616) :=
  decodeVarint_loop_cases d 11 i 0 0 (by decide) (by decide) (by decide)

theorem slice_of_le (d : List Byte) (lo hi : Nat) (h1 : lo ≤ hi) (h2 : hi ≤ d.length) :
    slice d lo hi = .ok ((d.drop lo).take (hi - lo)) := by
  unfold slice
  rw [if_pos ⟨h1, h2⟩]

/-- On any input shorter than 2^63 bytes the body of a string case returns an
error, or a string and an index that moved forward and stays within the
input. -/
theorem Unmarshal_stringField_cases (d : List Byte) (i : Nat)
    (hl : d.length < 9223372036854775808) :
    (∃ e, Unmarshal.stringField d i = .err e) ∨
    (∃ s j, Unmarshal.stringField d i = .ok (s, j) ∧ i < j ∧ j ≤ d.length) := by
  unfold Unmarshal.stringField
  rcases decodeVarint_cases d i with ⟨e, he⟩ | ⟨v, j, hv, h1, h2, h3⟩
  · rw [he, Res.err_bind]
    exact Or.inl ⟨_, rfl⟩
  · rw [hv, Res.ok_bind]
    dsimp only
    by_cases c1 : int64 (v : Int) < 0
    · rw [if_pos c1]
      exact Or.inl ⟨_, rfl⟩
    · rw [if_neg c1]
      by_cases c2 : int64 ((j : Int) + int64 (v : Int)) < 0
      · rw [if_pos c2]
        exact Or.inl ⟨_, rfl⟩
      · rw [if_neg c2]
        by_cases c3 : int64 ((j : Int) + int64 (v : Int)) > (d.length : Int)
        · rw [if_pos c3]
          exact Or.inl ⟨_, rfl⟩
        · rw [if_neg c3]
          have hj : (j : Int) ≤ int64 ((j : Int) + int64 (v : Int)) := by
            unfold int64 at c1 c2 ⊢
            omega
          have hto : j ≤ (int64 ((j : Int) + int64 (v : Int))).toNat := by omega
          have hto2 : (int64 ((j : Int) + int64 (v : Int))).toNat ≤ d.length := by omega
          rw [slice_of_le d j _ hto hto2, Res.ok_bind]
          exact Or.inr ⟨_, _, rfl, by omega, hto2⟩

/-- On any input the body of a boolean case returns an error, or a boolean and
an index that moved forward and stays within the input. -/
theorem Unmarshal_boolField_cases (d : List Byte) (i : Nat) :
    (∃ e, Unmarshal.boolField d i = .err e) ∨
    (∃ b j, Unmarshal.boolField d i = .ok (b, j) ∧ i < j ∧ j ≤ d.length) := by
  unfold Unmarshal.boolField
  rcases decodeVarint_cases d i with ⟨e, he⟩ | ⟨v, j, hv, h1, h2, _⟩
  · rw [he, Res.err_bind]
    exact Or.inl ⟨_, rfl⟩
  · rw [hv, Res.ok_bind]
    exact Or.inr ⟨_, _, rfl, h1, h2⟩

theorem int64_range (x : Int) :
    -9223372036854775808 ≤ int64 x ∧ int64 x < 9223372036854775808 := by
  unfold int64
  omega

/-- With enough budget, on a non-empty input shorter than 2^63 bytes `skipCaps`
returns an error or a 64-bit integer that is at least 1 or wrapped around to a
negative value, and the group loop returns an error or an index between 1 and
the length of the input. -/
theorem skipCaps_cases_aux : ∀ (fuel : Nat),
    (∀ d : List Byte, d.length < 9223372036854775808 → d ≠ [] → 2 * d.length ≤ fuel →
      (∃ e, skipCaps fuel d = .err e) ∨
      (∃ n, skipCaps fuel d = .ok n ∧ -9223372036854775808 ≤ n ∧ n < 9223372036854775808 ∧
        (1 ≤ n ∨ n + 18446744073709551616 ≤ (d.length : Int) + 8))) ∧
    (∀ (d : List Byte) (i : Nat), d.length < 9223372036854775808 →
      2 * (d.length - i) + 1 ≤ fuel →
      (∃ e, skipCaps.group fuel d i = .err e) ∨
      (∃ n, skipCaps.group fuel d i = .ok n ∧ 1 ≤ n ∧ n ≤ (d.length : Int))) := by
  intro fuel
  induction fuel with
  | zero =>
    constructor
    · intro d _ hne hf
      have : d.length = 0 := by omega
      exact absurd (List.length_eq_zero.1 this) hne
    · intro d i _ hf
      omega
  | succ fuel ih =>
    obtain ⟨ihP, ihQ⟩ := ih
    constructor
    · intro d hl hne hf
      have hpos : 0 < d.length := List.length_pos.2 hne
      rw [skipCaps]
      dsimp only
      rw [if_pos hpos]
      rcases decodeVarint_cases d 0 with ⟨e, he⟩ | ⟨wire, j, hv, h1, h2, _⟩
      · rw [he, Res.err_bind]
        exact Or.inl ⟨_, rfl⟩
      · rw [hv, Res.ok_bind]
        dsimp only
        by_cases w0 : wire &&& 0x7 = 0
        · rw [if_pos w0]
          rcases decodeVarint_cases d j with ⟨e, he⟩ | ⟨v2, j2, hv2, h3, h4, _⟩
          · rw [he, Res.err_bind]
            exact Or.inl ⟨_, rfl⟩
          · rw [hv2, Res.ok_bind]
            exact Or.inr ⟨_, rfl, by omega, by omega, Or.inl (by omega)⟩
        · rw [if_neg w0]
          by_cases w1 : wire &&& 0x7 = 1
          · rw [if_pos w1]
            refine Or.inr ⟨_, rfl, (int64_range _).1, (int64_range _).2, ?_⟩
            unfold int64
            omega
          · rw [if_neg w1]
            by_cases w2 : wire &&& 0x7 = 2
            · rw [if_pos w2]
              rcases decodeVarint_cases d j with ⟨e, he⟩ | ⟨v2, j2, hv2, h3, h4, h5⟩
              · rw [he, Res.err_bind]
                exact Or.inl ⟨_, rfl⟩
              · rw [hv2, Res.ok_bind]
                dsimp only
                by_cases c1 : int64 (v2 : Int) < 0
                · rw [if_pos c1]
                  exact Or.inl ⟨_, rfl⟩
                · rw [if_neg c1]
                  by_cases c2 : int64 ((j2 : Int) + int64 (v2 : Int)) < 0
                  · rw [if_pos c2]
                    exact Or.inl ⟨_, rfl⟩
                  · rw [if_neg c2]
                    refine Or.inr ⟨_, rfl, (int64_range _).1, (int64_range _).2, Or.inl ?_⟩
                    unfold int64 at c1 c2 ⊢
                    omega
            · rw [if_neg w2]
              by_cases w3 : wire &&& 0x7 = 3
              · rw [if_pos w3]
                rcases ihQ d j hl (by omega) with ⟨e, he⟩ | ⟨n, hn, g1, g2⟩
                · exact Or.inl ⟨e, he⟩
                · exact Or.inr ⟨n, hn, by omega, by omega, Or.inl g1⟩
              · rw [if_neg w3]
                by_cases w4 : wire &&& 0x7 = 4
                · rw [if_pos w4]
                  exact Or.inr ⟨_, rfl, by omega, by omega, Or.inl (by omega)⟩
                · rw [if_neg w4]
                  by_cases w5 : wire &&& 0x7 = 5
                  · rw [if_pos w5]
                    refine Or.inr ⟨_, rfl, (int64_range _).1, (int64_range _).2, ?_⟩
                    unfold int64
                    omega
                  · rw [if_neg w5]
                    exact Or.inl ⟨_, rfl⟩
    · intro d i hl hf
      rw [skipCaps.group]
      dsimp only
      rcases decodeVarint_cases d i with ⟨e, he⟩ | ⟨wire, j, hv, h1, h2, _⟩
      · rw [he, Res.err_bind]
        exact Or.inl ⟨_, rfl⟩
      · rw [hv, Res.ok_bind]
        dsimp only
        by_cases w4 : wire &&& 0x7 = 4
        · rw [if_pos w4]
          exact Or.inr ⟨_, rfl, by omega, by omega⟩
        · rw [if_neg w4, slice_of_le d i d.length (by omega) (Nat.le_refl _), Res.ok_bind]
          have hsub : (List.take (d.length - i) (List.drop i d)).length = d.length - i := by
            simp
          have hne : List.take (d.length - i) (List.drop i d) ≠ [] := by
            intro h0
            rw [h0] at hsub
            simp at hsub
            omega
          rcases ihP _ (by rw [hsub]; omega) hne (by rw [hsub]; omega) with
            ⟨e, he⟩ | ⟨n, hn, r1, r2, r3⟩
          · rw [he, Res.err_bind]
            exact Or.inl ⟨_, rfl⟩
          · rw [hn, Res.ok_bind]
            rw [hsub] at r3
            by_cases c1 : int64 ((i : Int) + n) < 0
            · rw [if_pos c1]
              exact Or.inl ⟨_, rfl⟩
            · rw [if_neg c1]
              have hgt : (i : Int) < int64 ((i : Int) + n) := by
                unfold int64 at c1 ⊢
                omega
              rcases ihQ d (int64 ((i : Int) + n)).toNat hl (by omega) with
                ⟨e, he⟩ | ⟨n2, hn2, g1, g2⟩
              · exact Or.inl ⟨e, he⟩
              · exact Or.inr ⟨n2, hn2, g1, g2⟩

/-- On a non-empty input shorter than 2^63 bytes `skipCaps`, with the budget
of twice the length, returns an error or an integer. -/
theorem skipCaps_cases (d : List Byte) (hl : d.length < 9223372036854775808) (hne : d ≠ []) :
    (∃ e, skipCaps (2 * d.length) d = .err e) ∨
    (∃ n, skipCaps (2 * d.length) d = .ok n ∧ -9223372036854775808 ≤ n ∧
      n < 9223372036854775808 ∧
      (1 ≤ n ∨ n + 18446744073709551616 ≤ (d.length : Int) + 8)) :=
  (skipCaps_cases_aux (2 * d.length)).1 d hl hne (Nat.le_refl _)

/-- The default case returns an error, or an index that moved forward and
stays within the input. -/
theorem Unmarshal_unknownField_cases (d : List Byte) (i : Nat) (m : APICap)
    (hl : d.length < 9223372036854775808) (hi : i < d.length) :
    (∃ e, Unmarshal.unknownField d i m = .err e) ∨
    (∃ j n, Unmarshal.unknownField d i m = .ok (j, n) ∧ i < j ∧ j ≤ d.length) := by
  unfold Unmarshal.unknownField
  dsimp only
  rw [slice_of_le d i d.length (by omega) (Nat.le_refl _), Res.ok_bind]
  have hsub : (List.take (d.length - i) (List.drop i d)).length = d.length - i := by
    simp
  have hne : List.take (d.length - i) (List.drop i d) ≠ [] := by
    intro h0
    rw [h0] at hsub
    simp at hsub
    omega
  rcases skipCaps_cases _ (by rw [hsub]; omega) hne with ⟨e, he⟩ | ⟨n, hn, r1, r2, r3⟩
  · rw [he, Res.err_bind]
    exact Or.inl ⟨_, rfl⟩
  · rw [hn, Res.ok_bind]
    by_cases c1 : n < 0
    · rw [if_pos c1]
      exact Or.inl ⟨_, rfl⟩
    · rw [if_neg c1]
      by_cases c2 : int64 ((i : Int) + n) < 0
      · rw [if_pos c2]
        exact Or.inl ⟨_, rfl⟩
      · rw [if_neg c2]
        by_cases c3 : int64 ((i : Int) + n) > (d.length : Int)
        · rw [if_pos c3]
          exact Or.inl ⟨_, rfl⟩
        · rw [if_neg c3]
          have hgt : (i : Int) < int64 ((i : Int) + n) := by
            unfold int64 at c2 ⊢
            omega
          rw [slice_of_le d i _ (by omega) (by omega), Res.ok_bind]
          exact Or.inr ⟨_, _, rfl, by omega, by omega⟩

/-- An iteration of the main loop returns an error, or an index that moved
forward and stays within the input. -/
theorem Unmarshal_step_cases (d : List Byte) (i : Nat) (m : APICap)
    (hl : d.length < 9223372036854775808) :
    (∃ e, Unmarshal.step d i m = .err e) ∨
    (∃ j n, Unmarshal.step d i m = .ok (j, n) ∧ i < j ∧ j ≤ d.length) := by
  have hstr : ∀ (k : Nat) (g : List Byte × Nat → Nat × APICap),
      (∀ r, (g r).1 = r.2) →
      (∃ e, (Unmarshal.stringField d k >>= fun r => pure (g r)) = .err e) ∨
      (∃ j n, (Unmarshal.stringField d k >>= fun r => pure (g r)) = .ok (j, n) ∧ k < j ∧
        j ≤ d.length) := by
    intro k g hg
    rcases Unmarshal_stringField_cases d k hl with ⟨e, he⟩ | ⟨s, j, hs, h1, h2⟩
    · rw [he, Res.err_bind]
      exact Or.inl ⟨_, rfl⟩
    · rw [hs, Res.ok_bind]
      refine Or.inr ⟨(g (s, j)).1, (g (s, j)).2, rfl, ?_, ?_⟩
      · rw [hg]; exact h1
      · rw [hg]; exact h2
  have hbool : ∀ (k : Nat) (g : Bool × Nat → Nat × APICap),
      (∀ r, (g r).1 = r.2) →
      (∃ e, (Unmarshal.boolField d k >>= fun r => pure (g r)) = .err e) ∨
      (∃ j n, (Unmarshal.boolField d k >>= fun r => pure (g r)) = .ok (j, n) ∧ k < j ∧
        j ≤ d.length) := by
    intro k g hg
    rcases Unmarshal_boolField_cases d k with ⟨e, he⟩ | ⟨s, j, hs, h1, h2⟩
    · rw [he, Res.err_bind]
      exact Or.inl ⟨_, rfl⟩
    · rw [hs, Res.ok_bind]
      refine Or.inr ⟨(g (s, j)).1, (g (s, j)).2, rfl, ?_, ?_⟩
      · rw [hg]; exact h1
      · rw [hg]; exact h2
  have hmono : ∀ (k : Nat) (r : Res (Nat × APICap)), i < k →
      ((∃ e, r = .err e) ∨ (∃ j n, r = .ok (j, n) ∧ k < j ∧ j ≤ d.length)) →
      ((∃ e, r = .err e) ∨ (∃ j n, r = .ok (j, n) ∧ i < j ∧ j ≤ d.length)) := by
    intro k r hk h
    rcases h with h | ⟨j, n, h1, h2, h3⟩
    · exact Or.inl h
    · exact Or.inr ⟨j, n, h1, by omega, h3⟩
  unfold Unmarshal.step
  dsimp only
  rcases decodeVarint_cases d i with ⟨e, he⟩ | ⟨wire, k, hv, h1, h2, _⟩
  · rw [he, Res.err_bind]
    exact Or.inl ⟨_, rfl⟩
  · rw [hv, Res.ok_bind]
    dsimp only
    by_cases w4 : wire &&& 0x7 = 4
    · rw [if_pos w4]
      exact Or.inl ⟨_, rfl⟩
    · rw [if_neg w4]
      by_cases f0 : int32 ((wire >>> 3 : Nat) : Int) ≤ 0
      · rw [if_pos f0]
        exact Or.inl ⟨_, rfl⟩
      · rw [if_neg f0]
        by_cases f1 : int32 ((wire >>> 3 : Nat) : Int) = 1
        · rw [if_pos f1]
          by_cases t : wire &&& 0x7 ≠ 2
          · rw [if_pos t]
            exact Or.inl ⟨_, rfl⟩
          · rw [if_neg t]
            exact hmono k _ h1 (hstr k (fun r => (r.2, { m with ID := r.1 })) (fun _ => rfl))
        · rw [if_neg f1]
          by_cases f2 : int32 ((wire >>> 3 : Nat) : Int) = 2
          · rw [if_pos f2]
            by_cases t : wire &&& 0x7 ≠ 0
            · rw [if_pos t]
              exact Or.inl ⟨_, rfl⟩
            · rw [if_neg t]
              exact hmono k _ h1
                (hbool k (fun r => (r.2, { m with Enabled := r.1 })) (fun _ => rfl))
          · rw [if_neg f2]
            by_cases f3 : int32 ((wire >>> 3 : Nat) : Int) = 3
            · rw [if_pos f3]
              by_cases t : wire &&& 0x7 ≠ 0
              · rw [if_pos t]
                exact Or.inl ⟨_, rfl⟩
              · rw [if_neg t]
                exact hmono k _ h1
                  (hbool k (fun r => (r.2, { m with Deprecated := r.1 })) (fun _ => rfl))
            · rw [if_neg f3]
              by_cases f4 : int32 ((wire >>> 3 : Nat) : Int) = 4
              · rw [if_pos f4]
                by_cases t : wire &&& 0x7 ≠ 2
                · rw [if_pos t]
                  exact Or.inl ⟨_, rfl⟩
                · rw [if_neg t]
                  exact hmono k _ h1
                    (hstr k (fun r => (r.2, { m with DisabledReason := r.1 })) (fun _ => rfl))
              · rw [if_neg f4]
                by_cases f5 : int32 ((wire >>> 3 : Nat) : Int) = 5
                · rw [if_pos f5]
                  by_cases t : wire &&& 0x7 ≠ 2
                  · rw [if_pos t]
                    exact Or.inl ⟨_, rfl⟩
                  · rw [if_neg t]
                    exact hmono k _ h1
                      (hstr k (fun r => (r.2, { m with DisabledReasonMsg := r.1 }))
                        (fun _ => rfl))
                · rw [if_neg f5]
                  by_cases f6 : int32 ((wire >>> 3 : Nat) : Int) = 6
                  · rw [if_pos f6]
                    by_cases t : wire &&& 0x7 ≠ 2
                    · rw [if_pos t]
                      exact Or.inl ⟨_, rfl⟩
                    · rw [if_neg t]
                      exact hmono k _ h1
                        (hstr k (fun r => (r.2, { m with DisabledAlternative := r.1 }))
                          (fun _ => rfl))
                  · rw [if_neg f6]
                    exact Unmarshal_unknownField_cases d i m hl (by omega)

/-- With a budget that covers the bytes still to read, the main loop returns
the message or an error. -/
theorem Unmarshal_loop_returns (d : List Byte) (hl : d.length < 9223372036854775808) :
    ∀ (fuel i : Nat) (m : APICap), i ≤ d.length → d.length - i + 1 ≤ fuel →
      (Unmarshal.loop d fuel i m).returns
  | 0, _, _, _, hf => absurd hf (by omega)
  | fuel + 1, i, m, hi, hf => by
    rw [Unmarshal.loop]
    by_cases hlt : i < d.length
    · rw [if_pos hlt]
      rcases Unmarshal_step_cases d i m hl with ⟨e, he⟩ | ⟨j, n, hs, h1, h2⟩
      · rw [he, Res.err_bind]
        exact Or.inr ⟨_, rfl⟩
      · rw [hs, Res.ok_bind]
        exact Unmarshal_loop_returns d hl fuel j n h2 (by omega)
    · rw [if_neg hlt, if_neg (by omega)]
      exact Or.inl ⟨_, rfl⟩

/-! ## The codec: round trip, size and safety -/

/-- C18: for a message without unrecognised bytes whose size fits a Go int,
`Marshal` succeeds, and `Unmarshal` of the bytes into the zero message succeeds
and gives a message with the same ID, Enabled, Deprecated, DisabledReason,
DisabledReasonMsg and DisabledAlternative and without unrecognised bytes; the
zero message marshals to no bytes at all. -/
theorem APICap_round_trip (m : APICap) (hun : m.XXX_unrecognized = [])
    (hsize : m.Size < 9223372036854775808) :
    (∃ bytes, m.Marshal = .ok bytes ∧
      ∃ n, APICap.Unmarshal {} bytes = .ok n ∧ n.ID = m.ID ∧ n.Enabled = m.Enabled ∧
        n.Deprecated = m.Deprecated ∧ n.DisabledReason = m.DisabledReason ∧
        n.DisabledReasonMsg = m.DisabledReasonMsg ∧
        n.DisabledAlternative = m.DisabledAlternative ∧ n.XXX_unrecognized = []) ∧
    APICap.Marshal {} = .ok [] := by
  refine ⟨⟨wireBytes m, Marshal_wireBytes m, _, Unmarshal_wireBytes m hun ?_, rfl, rfl, rfl,
    rfl, rfl, rfl, rfl⟩, by decide⟩
  rw [← Size_eq_wireBytes_length]
  exact hsize

/-- Witness of C18: the capability "A", enabled, with a one-byte reason. -/
theorem APICap_round_trip_witness :
    ∃ bytes, APICap.Marshal { ID := [0x41], Enabled := true, DisabledReason := [0x42] } =
        .ok bytes ∧
      ∃ n, APICap.Unmarshal {} bytes = .ok n ∧ n.ID = [0x41] ∧ n.Enabled = true ∧
        n.Deprecated = false ∧ n.DisabledReason = [0x42] ∧ n.DisabledReasonMsg = [] ∧
        n.DisabledAlternative = [] ∧ n.XXX_unrecognized = [] :=
  (APICap_round_trip { ID := [0x41], Enabled := true, DisabledReason := [0x42] } rfl
    (by decide)).1

/-- C19: `Size` agrees with the encoder. `MarshalTo` into a buffer of exactly
`m.Size()` bytes writes within the buffer, fills it with the wire format of
the message (tag, varint of the length and bytes of each non-empty string, tag
and 1 for each true boolean, then the unrecognised bytes) and returns
`m.Size()`, so `Marshal` returns exactly these `m.Size()` bytes. For every
`uint64` the function `encodeVarintCaps` writes, at the offset of a buffer
that has room for them, exactly the `sovCaps(v)` bytes of the varint of `v`:
the buffer it returns is the old one with these bytes in place of the bytes
from `offset` to `offset + sovCaps(v)`, every other byte is as it was, the new
offset is `offset + sovCaps(v)`, and reading a varint at the offset of the new
buffer gives `v` back. The ten iterations allowed to the loop of `sovCaps` are
enough for every `uint64`. -/
theorem Size_agrees_with_encoder (m : APICap) :
    (∀ dAtA : List Byte, dAtA.length = m.Size →
      m.MarshalTo dAtA = .ok (wireBytes m, m.Size)) ∧
    (m.Marshal = .ok (wireBytes m) ∧ (wireBytes m).length = m.Size) ∧
    (∀ (v : Nat) (dAtA : List Byte) (offset : Nat), v < 18446744073709551616 →
      offset + sovCaps v ≤ dAtA.length →
      encodeVarintCaps dAtA offset v =
        .ok (dAtA.take offset ++ varintBytes v ++ dAtA.drop (offset + sovCaps v),
          offset + sovCaps v) ∧
      (varintBytes v).length = sovCaps v ∧
      (dAtA.take offset ++ varintBytes v ++ dAtA.drop (offset + sovCaps v)).length =
        dAtA.length ∧
      decodeVarint (dAtA.take offset ++ varintBytes v ++ dAtA.drop (offset + sovCaps v))
        offset = .ok (v, offset + sovCaps v)) ∧
    (∀ (v fuel : Nat), v < 18446744073709551616 → 10 ≤ fuel →
      sovCaps.loop fuel v 0 = sovCaps v) := by
  refine ⟨?_, ?_, ?_, ?_⟩
  · intro dAtA hlen
    have hle : (wireBytes m).length ≤ dAtA.length := by
      rw [hlen, Size_eq_wireBytes_length]
    have hd : List.drop (wireBytes m).length dAtA = [] :=
      List.drop_of_length_le (by rw [hlen, Size_eq_wireBytes_length])
    rw [MarshalTo_wireBytes m dAtA hle, hd, List.append_nil, Size_eq_wireBytes_length]
  · exact ⟨Marshal_wireBytes m, (Size_eq_wireBytes_length m).symm⟩
  · intro v dAtA offset hv hroom
    rw [sovCaps_eq v hv] at hroom ⊢
    have hsplit : dAtA = dAtA.take offset ++ dAtA.drop offset := (List.take_append_drop _ _).symm
    have hpre : (dAtA.take offset).length = offset := by
      rw [List.length_take]
      omega
    have hrest : (varintBytes v).length ≤ (dAtA.drop offset).length := by
      rw [List.length_drop]
      omega
    have key := encodeVarintCaps_append v (dAtA.take offset) (dAtA.drop offset) hv hrest
    rw [← hsplit, hpre, List.drop_drop] at key
    have hread := decodeVarint_varintBytes v (dAtA.take offset)
      (dAtA.drop (offset + (varintBytes v).length)) hv
    rw [hpre] at hread
    refine ⟨key, rfl, ?_, hread⟩
    simp only [List.length_append, List.length_drop, hpre]
    omega
  · intro v fuel hv hfuel
    obtain ⟨k, rfl⟩ : ∃ k, fuel = k + 1 := ⟨fuel - 1, by omega⟩
    have h128 : v < 128 ^ (k + 1) := by
      have h10 : (128 : Nat) ^ 10 ≤ 128 ^ (k + 1) :=
        Nat.pow_le_pow_right (by decide) (by omega)
      have : (18446744073709551616 : Nat) < 128 ^ 10 := by decide
      omega
    rw [sovCaps_loop_eq k v 0 h128, sovCaps_eq v hv]
    simp

/-- Witness of C19: the varint of 300 written at the offset 1 of a buffer of
four bytes takes the two bytes 0xac and 0x02, and the two other bytes stay. -/
theorem Size_agrees_with_encoder_witness :
    (encodeVarintCaps [7, 7, 7, 7] 1 300 =
        .ok (List.take 1 [(7 : Byte), 7, 7, 7] ++ varintBytes 300 ++
          List.drop (1 + sovCaps 300) [(7 : Byte), 7, 7, 7], 1 + sovCaps 300) ∧
      (varintBytes 300).length = sovCaps 300) ∧
    encodeVarintCaps [7, 7, 7, 7] 1 300 = .ok ([7, 0xac, 0x02, 7], 3) :=
  ⟨⟨((Size_agrees_with_encoder {}).2.2.1 300 [7, 7, 7, 7] 1 (by decide) (by decide)).1,
    ((Size_agrees_with_encoder {}).2.2.1 300 [7, 7, 7, 7] 1 (by decide) (by decide)).2.1⟩,
   by decide⟩

/-- C20: on every input of a length that fits a Go int and for every message,
`Unmarshal` returns: the run of the model ends with the updated message or with
an error, within its iteration budget and without a panic, be it an index or a
slice out of range or the `panic("unreachable")` of `skipCaps`. That panic is
what `skipCaps` does on an empty slice, so it is never called on one; on every
non-empty slice `skipCaps` returns within a budget of twice the length. -/
theorem Unmarshal_total_and_safe (d : List Byte) (m : APICap)
    (hlen : d.length < 9223372036854775808) :
    ((∃ n, m.Unmarshal d = .ok n) ∨ (∃ e, m.Unmarshal d = .err e)) ∧
    (∀ fuel, skipCaps (fuel + 1) [] = .panic "unreachable") ∧
    (∀ sub : List Byte, sub ≠ [] → sub.length < 9223372036854775808 →
      (∃ n, skipCaps (2 * sub.length) sub = .ok n) ∨
      (∃ e, skipCaps (2 * sub.length) sub = .err e)) := by
  refine ⟨?_, ?_, ?_⟩
  · exact Unmarshal_loop_returns d hlen (d.length + 1) 0 m (Nat.zero_le _) (by omega)
  · intro fuel
    rfl
  · intro sub hne hl
    rcases skipCaps_cases sub hl hne with ⟨e, he⟩ | ⟨n, hn, _⟩
    · exact Or.inr ⟨e, he⟩
    · exact Or.inl ⟨n, hn⟩

/-- Witness of C20: an input that opens a group and ends in the middle of a
nested field. -/
theorem Unmarshal_total_and_safe_witness :
    (∃ n, APICap.Unmarshal {} [0x3b, 0x3b, 0x39, 1, 2, 3] = .ok n) ∨
    (∃ e, APICap.Unmarshal {} [0x3b, 0x3b, 0x39, 1, 2, 3] = .err e) :=
  (Unmarshal_total_and_safe [0x3b, 0x3b, 0x39, 1, 2, 3] {} (by decide)).1

end Caps
